import Mathlib

/-!
Verification development for the screenshot-resolution pipeline of an
app-store scraping library.

URLs and every other JavaScript string are modelled as `List Char`
(`Str` below); JavaScript numbers that the code only ever uses as
integers are modelled as `Nat`/`Int`, and heuristic confidence scores
(products of decimal multipliers) as `ℚ`.  The regular expressions of
the source are embedded as explicit left-to-right scanners that
reproduce the leftmost-match, greedy semantics of the JavaScript regex
engine on the pattern shapes actually used (for each pattern a short
argument shows backtracking cannot produce a different match, so the
greedy scanner is exact).  JavaScript `Map`/`Set`/object iteration is
insertion-ordered, and `Array.prototype.sort` is stable; both are
modelled explicitly (association lists in insertion order, and a
stable insertion sort).
-/

set_option autoImplicit false

abbrev Str := List Char

/-- JavaScript truthiness of a string: the empty string is falsy. -/
def strTruthy (s : Str) : Bool := !s.isEmpty

/-- `pat` is a prefix of `l`. -/
def hasPrefixS : Str → Str → Bool
  | [], _ => true
  | _ :: _, [] => false
  | p :: ps, c :: cs => p == c && hasPrefixS ps cs

/-- JavaScript `String.prototype.includes`: `pat` occurs as a contiguous
substring of `l`. -/
def containsSub (pat : Str) : Str → Bool
  | [] => hasPrefixS pat []
  | c :: cs => hasPrefixS pat (c :: cs) || containsSub pat cs

/-- Maximal run of decimal digits at the front: `(digits, rest)`. -/
def takeDigits (l : Str) : Str × Str := (l.takeWhile Char.isDigit, l.dropWhile Char.isDigit)

/-- `parseInt` on a nonempty run of decimal digits. -/
def parseNat (ds : Str) : Nat := ds.foldl (fun a c => 10 * a + (c.toNat - 48)) 0

/-- JavaScript `String.prototype.split` with a single-character separator. -/
def splitOnC (sep : Char) : Str → List Str
  | [] => [[]]
  | c :: cs =>
    let r := splitOnC sep cs
    if c == sep then [] :: r
    else
      match r with
      | [] => [[c]]
      | seg :: rest => (c :: seg) :: rest

/-- `url.split('/').pop()`: the last `/`-separated segment. -/
def lastSeg (l : Str) : Str := (splitOnC '/' l).getLastD []

/-- `x.split('.')[0]`: everything before the first dot. -/
def beforeFirstDot (l : Str) : Str := (splitOnC '.' l).headD []

/-- Attempt to match `(\d+)_of_(\d+)` at the start of `l`.
Greedy digit runs cannot backtrack usefully here because a shorter run
would have to be followed by `_` at a position that holds a digit. -/
def seqMatchAt (l : Str) : Option (Nat × Nat) :=
  let (d1, r1) := takeDigits l
  if d1.isEmpty then none
  else if hasPrefixS "_of_".data r1 then
    let (d2, _) := takeDigits (r1.drop 4)
    if d2.isEmpty then none else some (parseNat d1, parseNat d2)
  else none

/-- Leftmost match of `(\d+)_of_(\d+)`. -/
def seqMatch : Str → Option (Nat × Nat)
  | [] => none
  | c :: cs =>
    match seqMatchAt (c :: cs) with
    | some x => some x
    | none => seqMatch cs

/-- Attempt to match `Slice_(\d+)` at the start of `l`. -/
def sliceMatchAt (l : Str) : Option Nat :=
  if hasPrefixS "Slice_".data l then
    let (d, _) := takeDigits (l.drop 6)
    if d.isEmpty then none else some (parseNat d)
  else none

/-- Leftmost match of `Slice_(\d+)`. -/
def sliceMatch : Str → Option Nat
  | [] => none
  | c :: cs =>
    match sliceMatchAt (c :: cs) with
    | some x => some x
    | none => sliceMatch cs

/-- Attempt to match `(\d+)x(\d+)` at the start of `l`; also returns the
length of the matched text (used by the replace-based strippers). -/
def sizeMatchAt (l : Str) : Option (Nat × Nat × Nat) :=
  let (d1, r1) := takeDigits l
  if d1.isEmpty then none
  else
    match r1 with
    | 'x' :: r2 =>
      let (d2, _) := takeDigits r2
      if d2.isEmpty then none else some (parseNat d1, parseNat d2, d1.length + 1 + d2.length)
    | _ => none

/-- Leftmost match of `(\d+)x(\d+)`. -/
def sizeMatch : Str → Option (Nat × Nat × Nat)
  | [] => none
  | c :: cs =>
    match sizeMatchAt (c :: cs) with
    | some x => some x
    | none => sizeMatch cs

/-- `url.match(/(\d+)x(\d+)/)` turned into `width * height`, `0` if absent.
This is the shared `extractDimensions` helper of the source modules. -/
def extractDims (l : Str) : Nat :=
  match sizeMatch l with
  | some (w, h, _) => w * h
  | none => 0

/-- One step of `.replace(/\d+x\d+[^X]*∕/, '')` (no `g` flag): remove the
leftmost `\d+x\d+` together with the following maximal run of characters
for which `stop` is false; identity when there is no match. -/
def removeSizeTok (stop : Char → Bool) : Str → Str
  | [] => []
  | c :: cs =>
    match sizeMatchAt (c :: cs) with
    | some (_, _, n) => ((c :: cs).drop n).dropWhile (fun ch => !stop ch)
    | none => c :: removeSizeTok stop cs

/-- Remove the leftmost occurrence of any token in `toks`
(`.replace(/_new|_orig|_retry|_thumb/, '')` and friends; the alternatives
are distinguished by their second character, so at most one alternative
can match at a given position). -/
def removeFirstTok (toks : List Str) : Str → Str
  | [] => []
  | c :: cs =>
    match toks.find? (fun t => hasPrefixS t (c :: cs)) with
    | some t => (c :: cs).drop t.length
    | none => c :: removeFirstTok toks cs

/-- `.replace(/[-_]+$/, '')`: drop the trailing run of `-`/`_`. -/
def trimTrailingSeps (l : Str) : Str :=
  (l.reverse.dropWhile (fun c => c == '_' || c == '-')).reverse

/-- The version-suffix alternatives used throughout the pipeline. -/
def versionToks : List Str := ["_new".data, "_orig".data, "_retry".data, "_thumb".data]

/-- Attempt to match `[∕-](\d+)[^∕]*\.[^∕]*$` at the start of `l`: the
whole suffix after the digits must be slash-free and contain a dot
(backtracking the digit run only moves digits into that suffix, changing
neither condition). -/
def numberedMatchAt (l : Str) : Option Nat :=
  match l with
  | c :: rest =>
    if c == '/' || c == '-' then
      let (d, r) := takeDigits rest
      if d.isEmpty then none
      else if r.contains '/' then none
      else if r.contains '.' then some (parseNat d)
      else none
    else none
  | [] => none

/-- Leftmost match of `[∕-](\d+)[^∕]*\.[^∕]*$`. -/
def numberedMatch : Str → Option Nat
  | [] => none
  | c :: cs =>
    match numberedMatchAt (c :: cs) with
    | some x => some x
    | none => numberedMatch cs

/-- Character class `[a-f0-9-]`. -/
def isHexDash (c : Char) : Bool := c.isDigit || (97 ≤ c.toNat && c.toNat ≤ 102) || c == '-'

/-- Leftmost match of `[a-f0-9-]{16,}` (greedy: the full class run at the
first position whose run reaches length 16). -/
def hashMatch : Str → Option Str
  | [] => none
  | c :: cs =>
    let run := (c :: cs).takeWhile isHexDash
    if 16 ≤ run.length then some run else hashMatch cs

/-- Match of `\/([a-f0-9-]{36})\/([^\/]+)\.[^\/]+\/[^\/]+$` against a URL,
returning the two captures (the 36-character identifier segment and the
file name without its extension).  Because the pattern is anchored at the
end and its pieces are slash-free, a match exists precisely when the last
three `/`-separated segments (with at least one further segment before
them) have this shape. -/
def uuidFileMatch (l : Str) : Option (Str × Str) :=
  match (splitOnC '/' l).reverse with
  | seg2 :: seg1 :: uuid :: _ :: _ =>
    if uuid.length == 36 && uuid.all isHexDash && !seg2.isEmpty then
      if seg1.contains '.' then
        let ext := (seg1.reverse.takeWhile (fun c => c != '.')).reverse
        let name := seg1.take (seg1.length - ext.length - 1)
        if !name.isEmpty && !ext.isEmpty then some (uuid, name) else none
      else none
    else none
  | _ => none

/-- Match of the stale-date pattern `\/\d{4}\/\d{2}\//` at the start. -/
def dateTokAt (l : Str) : Bool :=
  match l with
  | '/' :: a :: b :: c :: d :: '/' :: e :: f :: '/' :: _ =>
    a.isDigit && b.isDigit && c.isDigit && d.isDigit && e.isDigit && f.isDigit
  | _ => false

/-- `url.match(/\/\d{4}\/\d{2}\//)` as a Boolean. -/
def dateTok : Str → Bool
  | [] => false
  | c :: cs => dateTokAt (c :: cs) || dateTok cs

/-- ASCII lower-casing (`String.prototype.toLowerCase` on the URLs in play). -/
def toLowerS (l : Str) : Str := l.map Char.toLower

/-- Number of occurrences of a character (`(s.match(/_/g) || []).length`). -/
def countChar (ch : Char) (l : Str) : Nat := (l.filter (fun c => c == ch)).length

/-- Render a `Nat` the way JavaScript template literals do. -/
def natToStr (n : Nat) : Str := (toString n).data

/-- Stable insertion used by `sortByCmp`: `x` moves past `y` only when the
comparator strictly orders `y` before `x`, which preserves the original
order of ties exactly like the (ES2019-stable) JavaScript sort. -/
def insertByCmp {α : Type} (lt : α → α → Bool) (x : α) : List α → List α
  | [] => [x]
  | y :: ys => if lt y x then y :: insertByCmp lt x ys else x :: y :: ys

/-- Stable sort by a JavaScript comparator (`lt a b` ⟺ `cmp(a,b) < 0`). -/
def sortByCmp {α : Type} (lt : α → α → Bool) : List α → List α
  | [] => []
  | x :: xs => insertByCmp lt x (sortByCmp lt xs)

/-- Append `x` unless already present (JavaScript `Set.add` in insertion
order). -/
def pushAbsent {α : Type} [DecidableEq α] (acc : List α) (x : α) : List α :=
  if x ∈ acc then acc else acc ++ [x]

/-- First-occurrence deduplication, i.e. `[...new Set(l)]`. -/
def dedupF {α : Type} [DecidableEq α] (l : List α) : List α := l.foldl pushAbsent []

/-- Append `v` to the group of `k`, creating the group at the end when the
key is new (a JavaScript `Map` of arrays fed by `push`). -/
def insertPush {α β : Type} [DecidableEq α] (k : α) (v : β) :
    List (α × List β) → List (α × List β)
  | [] => [(k, [v])]
  | (k', vs) :: t => if k = k' then (k', vs ++ [v]) :: t else (k', vs) :: insertPush k v t

/-- Group a list by a key function, keys in first-occurrence order. -/
def groupByKey {α β : Type} [DecidableEq α] (key : β → α) (l : List β) : List (α × List β) :=
  l.foldl (fun g u => insertPush (key u) u g) []

/-- JavaScript `Map.set`: replace in place, or append a new entry. -/
def setAssoc {α β : Type} [DecidableEq α] (k : α) (v : β) : List (α × β) → List (α × β)
  | [] => [(k, v)]
  | (k', v') :: t => if k = k' then (k, v) :: t else (k', v') :: setAssoc k v t

/-- JavaScript `Map.get` as an `Option`. -/
def getAssoc {α β : Type} [DecidableEq α] (k : α) : List (α × β) → Option β
  | [] => none
  | (k', v) :: t => if k = k' then some v else getAssoc k t

/-- `Math.floor(q + 1/2)`, the behaviour of `Math.round` on the
nonnegative values that occur here. -/
def jsRound (q : ℚ) : ℤ := ⌊q + 1 / 2⌋

/-- The stripped base name of a URL: last path segment, cut at the first
dot, with the leftmost size token (`\d+x\d+[^_-]*`), the leftmost version
marker (`_new|_orig|_retry|_thumb`) and trailing `-`/`_` runs removed.
Three source modules repeat this identical cleaning verbatim: the core of
`fallbackId` in `content-deduplicator.js`, `extractBaseName` in
`pattern-analyzer.js`, and `extractContentIdentifier` in the smart
filter. -/
def strippedName (u : Str) : Str :=
  trimTrailingSeps (removeFirstTok versionToks
    (removeSizeTok (fun c => c == '_' || c == '-') (beforeFirstDot (lastSeg u))))

/-- An app record as the pipeline sees it: the three per-platform
screenshot collections, the numeric store id (as a string, `none` when the
field is absent), and the two annotation fields the fallback path adds
(`_screenshotExtractionWarning` and `_lastError`).  The source also reads
`title` and `developer` into local variables of
`_detectContentMismatches`, but those locals are dead, so the fields are
not modelled. -/
structure AppData where
  screenshots : List Str
  ipadScreenshots : List Str
  appletvScreenshots : List Str
  id : Option Str
  warningTag : Option Str
  lastErrMsg : Option Str
  deriving Repr, DecidableEq

/-! ## Content Deduplicator (`lib/content-deduplicator.js`)

`deduplicate` groups screenshot URLs by an inferred content identity and
keeps one representative per group.  The `Math.random()` expression in the
source's `fallbackId` sits behind a JavaScript `||` whose left operand is
the template literal `fallback_${cleanName}` — a string that always starts
with `fallback_` and hence is never falsy — so the random branch is dead
code; the embedding threads the random value through explicitly as `rand`
so that this independence can be stated and proved. -/

namespace ContentDeduplicator

/-- Accumulator for the per-URL pattern counters of `analyzeUrlPatterns`
(the source also declares a `themed` pattern, but no code ever sets it). -/
structure PatAcc where
  seqFound : Bool
  seqCount : Nat
  sliceFound : Bool
  sliceCount : Nat
  hashFound : Bool
  hashCount : Nat
  numFound : Bool
  numCount : Nat
  expected : Nat
  deriving Repr, DecidableEq

/-- One iteration of the `urls.forEach` body of `analyzeUrlPatterns`
(falsy URLs are skipped; the numbered check requires that neither the
sequential nor the slice regex matched this URL). -/
def patStep (a : PatAcc) (u : Str) : PatAcc :=
  if u.isEmpty then a
  else
    let sm := seqMatch u
    let slm := sliceMatch u
    let a1 :=
      match sm with
      | some (_, n) =>
        { a with seqFound := true, seqCount := a.seqCount + 1, expected := max a.expected n }
      | none => a
    let a2 :=
      match slm with
      | some k =>
        { a1 with sliceFound := true, sliceCount := a1.sliceCount + 1,
                  expected := max a1.expected (k + 1) }
      | none => a1
    let a3 :=
      match numberedMatch u with
      | some n =>
        if sm.isNone && slm.isNone then
          { a2 with numFound := true, numCount := a2.numCount + 1,
                    expected := max a2.expected n }
        else a2
      | none => a2
    match hashMatch u with
    | some _ => { a3 with hashFound := true, hashCount := a3.hashCount + 1 }
    | none => a3

/-- Dominant pattern: entries of the `patterns` object in declaration
order (`sequential`, `slice`, `hash`, `numbered`, `themed`), found ones
only, stably sorted by count descending; head name, else `unknown`.
`themed` never contributes because it is never set. -/
def dominantOf (a : PatAcc) : Str :=
  let entries : List (Str × Nat) :=
    (if a.seqFound then [("sequential".data, a.seqCount)] else []) ++
    (if a.sliceFound then [("slice".data, a.sliceCount)] else []) ++
    (if a.hashFound then [("hash".data, a.hashCount)] else []) ++
    (if a.numFound then [("numbered".data, a.numCount)] else [])
  match sortByCmp (fun x y => decide (y.2 < x.2)) entries with
  | [] => "unknown".data
  | e :: _ => e.1

/-- Result record of `analyzeUrlPatterns`. -/
structure UrlAnalysis where
  totalUrls : Nat
  counters : PatAcc
  dominantPattern : Str
  expectedUniqueCount : Nat
  deriving Repr, DecidableEq

/-- `analyzeUrlPatterns`: fold the per-URL counters, then derive the
dominant pattern and the estimated unique count (`Math.ceil(n/2)` for the
hash case, `Math.min(6, Math.ceil(n/3))` otherwise, when no explicit
expected count was seen). -/
def analyzeUrlPatterns (urls : List Str) : UrlAnalysis :=
  let a := urls.foldl patStep ⟨false, 0, false, 0, false, 0, false, 0, 0⟩
  let expected :=
    if a.expected = 0 then
      if a.hashFound then (urls.length + 1) / 2
      else min 6 ((urls.length + 2) / 3)
    else a.expected
  { totalUrls := urls.length
    counters := a
    dominantPattern := dominantOf a
    expectedUniqueCount := expected }

/-- The filename-based cleaned base used by `fallbackId` (see
`strippedName`). -/
def cleanedBase (u : Str) : Str := strippedName u

/-- `fallbackId`: the template literal result, falling back to the random
suffix only when the literal is falsy (which never happens — see
`fallbackId_rand_irrel`). -/
def fallbackId (rand : Str) (u : Str) : Str :=
  let cand := "fallback_".data ++ cleanedBase u
  if cand.isEmpty then "fallback_".data ++ rand else cand

/-- `extractContentId` with the fallback derivation abstracted: dispatch
on the dominant pattern, re-matching the corresponding regex on the URL,
with `fb` as default. -/
def extractContentIdW (fb : Str → Str) (a : UrlAnalysis) (u : Str) : Str :=
  if a.dominantPattern = "sequential".data then
    match seqMatch u with
    | some (k, _) => "seq_".data ++ natToStr k
    | none => fb u
  else if a.dominantPattern = "slice".data then
    match sliceMatch u with
    | some k => "slice_".data ++ natToStr k
    | none => fb u
  else if a.dominantPattern = "numbered".data then
    match numberedMatch u with
    | some n => "num_".data ++ natToStr n
    | none => fb u
  else if a.dominantPattern = "hash".data then
    match hashMatch u with
    | some h => "hash_".data ++ h.take 16
    | none => fb u
  else fb u

/-- `extractContentId` of the source. -/
def extractContentId (rand : Str) (a : UrlAnalysis) (u : Str) : Str :=
  extractContentIdW (fallbackId rand) a u

/-- The five-priority comparator of `selectBestUrl` (negative: `a`
first).  For the iPad platform the comparator returns the complexity
difference unconditionally, exactly as the source does. -/
def cmpBest (platform : Str) (a b : Str) : Int :=
  let aNew := containsSub "_new".data a
  let bNew := containsSub "_new".data b
  let aOld := containsSub "_orig".data a || containsSub "_retry".data a
  let bOld := containsSub "_orig".data b || containsSub "_retry".data b
  if aNew && !bNew then -1
  else if !aNew && bNew then 1
  else if aOld && !bOld then 1
  else if !aOld && bOld then -1
  else
    let aD := extractDims a
    let bD := extractDims b
    if aD ≠ bD then (bD : Int) - (aD : Int)
    else
      let aT := containsSub "300x0w".data a || containsSub "thumb".data a
      let bT := containsSub "300x0w".data b || containsSub "thumb".data b
      if aT && !bT then 1
      else if !aT && bT then -1
      else if platform = "iPad".data then (countChar '_' a : Int) - (countChar '_' b : Int)
      else (a.length : Int) - (b.length : Int)

/-- `selectBestUrl`: `urls.sort(cmp)[0]`. -/
def selectBestUrl (platform : Str) (urls : List Str) : Str :=
  (sortByCmp (fun a b => decide (cmpBest platform a b < 0)) urls).headD []

/-- `extractSequenceNumber`: sequence index, else slice index, else
numeric suffix. -/
def extractSequenceNumber (u : Str) : Option Nat :=
  match seqMatch u with
  | some (k, _) => some k
  | none =>
    match sliceMatch u with
    | some k => some k
    | none => numberedMatch u

/-- Code-point lexicographic three-way comparison, standing in for
`String.prototype.localeCompare`.  The exact collation of `localeCompare`
is locale dependent; no theorem below depends on the order it induces,
only on it being a fixed pure function. -/
def lexCmp : Str → Str → Int
  | [], [] => 0
  | [], _ :: _ => -1
  | _ :: _, [] => 1
  | a :: as, b :: bs =>
    if a.toNat < b.toNat then -1
    else if b.toNat < a.toNat then 1
    else lexCmp as bs

/-- The comparator of `sortRepresentatives`: numeric when both URLs carry
a sequence number, lexicographic otherwise. -/
def cmpReps (a b : Str) : Int :=
  match extractSequenceNumber a, extractSequenceNumber b with
  | some x, some y => (x : Int) - (y : Int)
  | _, _ => lexCmp a b

/-- `sortRepresentatives`. -/
def sortRepresentatives (urls : List Str) : List Str :=
  sortByCmp (fun a b => decide (cmpReps a b < 0)) urls

/-- Body of the `contentGroups.forEach` of `selectBestRepresentatives`:
singleton groups contribute their only member, larger groups the winner
of `selectBestUrl`. -/
def pickRepresentative (platform : Str) (g : List Str) : Str :=
  if g.length == 1 then g.headD [] else selectBestUrl platform g

/-- `groupByContent`: group the truthy URLs by content id, groups in
first-occurrence order (JavaScript `Map` insertion order). -/
def groupByContent (cid : Str → Str) (urls : List Str) : List (Str × List Str) :=
  groupByKey cid (urls.filter strTruthy)

/-- `selectBestRepresentatives` followed by `sortRepresentatives`. -/
def dedupCore (cid : Str → Str) (platform : Str) (urls : List Str) : List Str :=
  sortRepresentatives ((groupByContent cid urls).map fun kg => pickRepresentative platform kg.2)

/-- `deduplicate`, with the value that `Math.random()` would produce in
`fallbackId` made an explicit argument. -/
def deduplicateR (rand : Str) (urls : List Str) (platform : Str) : List Str :=
  if urls.isEmpty then []
  else dedupCore (extractContentId rand (analyzeUrlPatterns urls)) platform urls

/-- `deduplicate` as exported (any fixed random value; see
`deduplicateR_rand_irrel`). -/
def deduplicate (urls : List Str) (platform : Str) : List Str :=
  deduplicateR "0".data urls platform

end ContentDeduplicator

/-! ## Screenshot Validator (`lib/screenshot-validator.js`)

`validateScreenshots` checks a candidate result against the live store
page, with a 60-second per-`(appId, country)` result cache.  Network
effects (the HEAD request against the product page and the sampled HEAD
requests against screenshot URLs) are supplied by a `NetEnv` oracle, and
the number of HEAD requests a call performs is returned explicitly so
that cache claims about "no additional reachability checks" can be
stated.  `Date.now()` is an explicit `now : Nat` (milliseconds)
argument.  The `try/catch` of `validateScreenshots` and the per-URL
`try/catch` of `_validateScreenshotUrls` are dead in the embedding
(failed HEAD requests are `headOk = false`, and `_performValidation` is
total), so they are not modelled. -/

namespace ScreenshotValidator

/-- A `ValidationResult`. -/
structure VR where
  isValid : Bool
  confidence : ℚ
  issues : List Str
  recommendations : List Str
  deriving Repr, DecidableEq

/-- Network oracle: `pageOk appId country` is the outcome of the HEAD
request against `https://apps.apple.com/{country}/app/id{appId}`, and
`headOk url` the outcome (status 200 within timeout) of a HEAD request
against a screenshot URL. -/
structure NetEnv where
  pageOk : Str → Str → Bool
  headOk : Str → Bool

/-- `_extractVisualIdentifier`: strip the leftmost `\d+x\d+[^∕]*` size
token and the leftmost version marker from the whole URL, then take the
last path segment up to its first dot (or the stripped URL itself when
the last segment is falsy). -/
def extractVisualIdentifier (u : Str) : Str :=
  let i1 := removeSizeTok (fun c => c == '/') u
  let i2 := removeFirstTok versionToks i1
  let filename := lastSeg i2
  if filename.isEmpty then i2 else beforeFirstDot filename

/-- `_countVisualDuplicates`: walk the list with a seen-set of visual
identifiers, counting re-occurrences (falsy URLs are skipped). -/
def countVisualDuplicates (urls : List Str) : Nat :=
  (urls.foldl
    (fun (st : List Str × Nat) u =>
      if u.isEmpty then st
      else
        let idf := extractVisualIdentifier u
        if idf ∈ st.1 then (st.1, st.2 + 1) else (st.1 ++ [idf], st.2))
    ([], 0)).2

/-- `_detectExcessiveDuplicates`: per platform, flag when duplicates
exceed 40% of the collection. -/
def detectExcessiveDuplicates (phone tablet : List Str) : List Str :=
  -- dups > len·0.4 ⟺ 2·len < 5·dups (exact, kernel-evaluable)
  (if 2 * phone.length < 5 * countVisualDuplicates phone then
    ["excessive_iphone_duplicates".data] else []) ++
  (if 2 * tablet.length < 5 * countVisualDuplicates tablet then
    ["excessive_ipad_duplicates".data] else [])

/-- The forbidden substrings of the single entry (`appId 6446901002`) of
the known-mismatch table. -/
def mismatchPatterns : List Str := ["mastodon".data, "toot".data, "fediverse".data]

/-- `_detectContentMismatches`: the hard-coded table has one entry; a hit
requires the record id to equal `6446901002` and some URL (lower-cased)
to contain a forbidden substring. -/
def detectContentMismatches (d : AppData) (phone tablet : List Str) : List Str :=
  let allUrls := phone ++ tablet
  match d.id with
  | some i =>
    if i = "6446901002".data then
      if allUrls.any (fun u => !u.isEmpty &&
          mismatchPatterns.any (fun p => containsSub p (toLowerS u))) then
        ["threads_mastodon_mismatch".data]
      else []
    else []
  | none => []

/-- `_analyzeScreenshotPatterns`: staleness markers (`×0.5`), the
known-mismatch table (`×0.2`) and excessive duplicates (`×0.6`), issues
in that order, starting from confidence 1. -/
def analyzeScreenshotPatterns (d : AppData) : List Str × ℚ :=
  let phone := d.screenshots
  let tablet := d.ipadScreenshots
  let hasOld := (phone ++ tablet).any fun u =>
    !u.isEmpty && (containsSub "_old".data u || containsSub "_archived".data u ||
      containsSub "_legacy".data u || dateTok u)
  let s1 : List Str × ℚ :=
    if hasOld then (["potentially_stale_urls".data], 1 * (1 / 2)) else ([], 1)
  let mm := detectContentMismatches d phone tablet
  let s2 : List Str × ℚ := if mm.isEmpty then s1 else (s1.1 ++ mm, s1.2 * (1 / 5))
  let dups := detectExcessiveDuplicates phone tablet
  if dups.isEmpty then s2 else (s2.1 ++ dups, s2.2 * (3 / 5))

/-- Outcome of `_validateScreenshotUrls`: issues, confidence multiplier,
and the number of HEAD requests performed. -/
structure UrlCheck where
  issues : List Str
  confidence : ℚ
  checks : Nat
  deriving Repr, DecidableEq

/-- `_validateScreenshotUrls`: sample up to three of the phone + tablet
URLs; below 50% reachable `×0.3`, below 80% `×0.7`; an empty collection
short-circuits with issue `no_screenshots` and confidence 0.3. -/
def validateUrls (env : NetEnv) (d : AppData) : UrlCheck :=
  let allUrls := d.screenshots ++ d.ipadScreenshots
  if allUrls.isEmpty then ⟨["no_screenshots".data], 3 / 10, 0⟩
  else
    let sample := allUrls.take 3
    let accessible := (sample.filter env.headOk).length
    -- acc/sample < 0.5 ⟺ 2·acc < sample and acc/sample < 0.8 ⟺ 5·acc <
    -- 4·sample (exact, kernel-evaluable; sample is nonempty here); the HEAD
    -- count is the sample size in every branch
    let ic : List Str × ℚ :=
      if 2 * accessible < sample.length then
        (["screenshots_not_accessible".data], 1 * (3 / 10))
      else if 5 * accessible < 4 * sample.length then
        (["some_screenshots_inaccessible".data], 1 * (7 / 10))
      else ([], 1)
    ⟨ic.1, ic.2, sample.length⟩

/-- `_generateRecommendations`. -/
def genRecs (issues : List Str) (conf : ℚ) : List Str :=
  let r1 : List Str :=
    if conf < 3 / 10 then ["force_refresh".data]
    else if conf < 7 / 10 then ["clear_cache".data]
    else []
  let r2 := r1 ++
    (if "excessive_iphone_duplicates".data ∈ issues ∨
        "excessive_ipad_duplicates".data ∈ issues then
      ["rerun_deduplication".data] else [])
  let r3 := r2 ++
    (if "threads_mastodon_mismatch".data ∈ issues then ["force_web_scraping".data] else [])
  let r4 := r3 ++
    (if "screenshots_not_accessible".data ∈ issues then ["refresh_screenshot_urls".data] else [])
  if r4.isEmpty && !issues.isEmpty then ["manual_review".data] else r4

/-- `_performValidation`: the existence check short-circuits with issue
`app_not_found`, confidence 0 and recommendations `[app_removed]`
(performing one HEAD request); otherwise pattern analysis and URL
sampling run, `isValid` requires confidence above 0.7 and no issues, and
recommendations come from `_generateRecommendations`.  The second
component counts HEAD requests (one for the page plus the samples). -/
def performValidation (env : NetEnv) (d : AppData) (appId country : Str) : VR × Nat :=
  if env.pageOk appId country then
    let pat := analyzeScreenshotPatterns d
    let urlv := validateUrls env d
    let issues := pat.1 ++ urlv.issues
    let conf := 1 * pat.2 * urlv.confidence
    ({ isValid := decide (7 / 10 < conf) && issues.isEmpty
       confidence := conf
       issues := issues
       recommendations := genRecs issues conf }, 1 + urlv.checks)
  else
    ({ isValid := false, confidence := 0, issues := ["app_not_found".data],
       recommendations := ["app_removed".data] }, 1)

/-- The process-wide validation cache: key `appId_country`, value
`(timestamp, result)`. -/
structure VState where
  cache : List (Str × (Nat × VR))
  deriving Repr, DecidableEq

/-- `maxCacheAge`: one minute, in milliseconds. -/
def maxCacheAge : Nat := 60000

/-- `${appId}_${country}`. -/
def cacheKey (appId country : Str) : Str := appId ++ "_".data ++ country

/-- The cache read of `validateScreenshots`: an entry is returned only
when `now - timestamp < maxCacheAge`. -/
def cacheRead (st : VState) (now : Nat) (key : Str) : Option VR :=
  match getAssoc key st.cache with
  | some (ts, r) => if now - ts < maxCacheAge then some r else none
  | none => none

/-- `validateScreenshots`: cached result when fresh (no HEAD requests),
otherwise compute, store under the key with the current timestamp, and
return.  Result, updated cache state, and HEAD-request count. -/
def validateScreenshots (st : VState) (now : Nat) (env : NetEnv) (d : AppData)
    (appId country : Str) : VR × VState × Nat :=
  let key := cacheKey appId country
  match cacheRead st now key with
  | some r => (r, st, 0)
  | none =>
    let rc := performValidation env d appId country
    (rc.1, ⟨setAssoc key (now, rc.1) st.cache⟩, rc.2)

end ScreenshotValidator

/-! ## Pattern Analyzer (`lib/pattern-analyzer.js`)

`analyzeCollection` classifies a URL collection through five pattern
detectors and derives a `FilterDecision` (strategy, confidence, action,
target count).  The `rationale` strings of the source are presentation
only and are not modelled.  In `detectSequentialPattern`, a URL of the
pathological form `k_of_0` would make the JavaScript completeness ratio
`Infinity`; the Boolean `isComplete` models this case exactly, while the
rational `strength` field (which only feeds the unused-downstream
dominant-pattern label) is 0 there. -/

namespace PatternAnalyzer

/-- Raw captures of the leftmost `(\d+)x(\d+)` match (the literal digit
strings, as used for the size-variation keys `${m[1]}x${m[2]}`). -/
def sizeMatchRawAt (l : Str) : Option (Str × Str) :=
  let (d1, r1) := takeDigits l
  if d1.isEmpty then none
  else
    match r1 with
    | 'x' :: r2 =>
      let (d2, _) := takeDigits r2
      if d2.isEmpty then none else some (d1, d2)
    | _ => none

/-- Leftmost raw `(\d+)x(\d+)` match. -/
def sizeMatchRaw : Str → Option (Str × Str)
  | [] => none
  | c :: cs =>
    match sizeMatchRawAt (c :: cs) with
    | some x => some x
    | none => sizeMatchRaw cs

/-- Result shape shared by the sequential and the slice detector. -/
structure SeqPat where
  found : Bool
  coverage : ℚ
  strength : ℚ
  expectedCount : Nat
  actualCount : Nat
  isComplete : Bool
  deriving Repr, DecidableEq

/-- `detectSequentialPattern`: collect, per claimed total `N`, the set of
sequence indices seen (map in first-occurrence order of `N`, sets in
insertion order); the most frequent `N` (stable sort by set size
descending) is the expected count, and the pattern is complete when more
than 80% of its indices were found. -/
def detectSequentialPattern (urls : List Str) : SeqPat :=
  let sequentialUrls := urls.filter (fun u => (seqMatch u).isSome)
  let info : List (Nat × List Nat) :=
    sequentialUrls.foldl
      (fun m u =>
        match seqMatch u with
        | some (k, n) =>
          match getAssoc n m with
          | some ks => setAssoc n (pushAbsent ks k) m
          | none => setAssoc n [k] m
        | none => m)
      []
  match sortByCmp (fun x y => decide (y.2.length < x.2.length)) info with
  | [] =>
    { found := !sequentialUrls.isEmpty
      coverage := (sequentialUrls.length : ℚ) / (urls.length : ℚ)
      strength := 0
      expectedCount := 0
      actualCount := sequentialUrls.length
      isComplete := false }
  | (n, ks) :: _ =>
    { found := !sequentialUrls.isEmpty
      coverage := (sequentialUrls.length : ℚ) / (urls.length : ℚ)
      strength := if n = 0 then 0 else (ks.length : ℚ) / (n : ℚ)
      expectedCount := n
      actualCount := sequentialUrls.length
      -- completeness > 0.8: for n > 0, size/n > 4/5 ⟺ 4·n < 5·size (written
      -- division-free so the kernel can evaluate it; the n = 0 corner, where
      -- the JavaScript ratio is Infinity, is the explicit true branch)
      isComplete := if n = 0 then true else decide (4 * n < 5 * ks.length) }

/-- `detectSlicePattern`: distinct slice indices; expected count is
`max + 1`; complete when every index below the maximum is present. -/
def detectSlicePattern (urls : List Str) : SeqPat :=
  let sliceUrls := urls.filter (fun u => (sliceMatch u).isSome)
  let nums := dedupF (sliceUrls.filterMap sliceMatch)
  let expected := if nums.isEmpty then 0 else nums.foldl max 0 + 1
  { found := !sliceUrls.isEmpty
    coverage := (sliceUrls.length : ℚ) / (urls.length : ℚ)
    strength := if 0 < expected then (nums.length : ℚ) / (expected : ℚ) else 0
    expectedCount := expected
    actualCount := sliceUrls.length
    isComplete := nums.length == expected }

/-- Result of `detectQualityTiers`. -/
structure TierPat where
  found : Bool
  coverage : ℚ
  strength : ℚ
  uniqueQualities : Nat
  redundancy : ℚ
  deriving Repr, DecidableEq

/-- `detectQualityTiers`: bucket URLs by pixel area (zero-dimension URLs
skipped); more than one bucket means tiers exist, and the tier redundancy
is the share of URLs outside the largest bucket. -/
def detectQualityTiers (urls : List Str) : TierPat :=
  let tiers : List (Nat × Nat) :=
    urls.foldl
      (fun m u =>
        let dims := extractDims u
        if 0 < dims then
          match getAssoc dims m with
          | some c => setAssoc dims (c + 1) m
          | none => setAssoc dims 1 m
        else m)
      []
  let uniq := tiers.length
  let hasMultiple := decide (1 < uniq)
  let maxCount := tiers.foldl (fun acc kc => max acc kc.2) 0
  let redundancy : ℚ :=
    if hasMultiple then ((urls.length : ℚ) - (maxCount : ℚ)) / (urls.length : ℚ) else 0
  { found := hasMultiple
    coverage := if hasMultiple then 1 else 0
    strength := redundancy
    uniqueQualities := uniq
    redundancy := redundancy }

/-- Result of `detectSizeVariations`. -/
structure SizePat where
  found : Bool
  coverage : ℚ
  strength : ℚ
  uniqueSizes : Nat
  sizedUrlCount : Nat
  deriving Repr, DecidableEq

/-- `detectSizeVariations`: distinct literal `WxH` tokens. -/
def detectSizeVariations (urls : List Str) : SizePat :=
  let sized := urls.filterMap sizeMatchRaw
  let sizes := dedupF (sized.map (fun wh => wh.1 ++ "x".data ++ wh.2))
  { found := decide (1 < sizes.length)
    coverage := (sized.length : ℚ) / (urls.length : ℚ)
    strength := if 1 < sizes.length then ((sizes.length : ℚ) - 1) / (sizes.length : ℚ) else 0
    uniqueSizes := sizes.length
    sizedUrlCount := sized.length }

/-- Result of `detectVersionVariations`. -/
structure VerPat where
  found : Bool
  coverage : ℚ
  strength : ℚ
  uniqueVersions : Nat
  versionedUrlCount : Nat
  deriving Repr, DecidableEq

/-- The five version markers of `detectVersionVariations`. -/
def versionMarkers : List Str :=
  ["_new".data, "_orig".data, "_retry".data, "_thumb".data, "_old".data]

/-- `detectVersionVariations`: how many of the five markers occur, and in
how many URLs. -/
def detectVersionVariations (urls : List Str) : VerPat :=
  let uniqMarkers :=
    dedupF (urls.flatMap (fun u => versionMarkers.filter (fun m => containsSub m u)))
  let versioned := urls.filter (fun u => versionMarkers.any (fun m => containsSub m u))
  { found := decide (0 < uniqMarkers.length)
    coverage := (versioned.length : ℚ) / (urls.length : ℚ)
    strength := (uniqMarkers.length : ℚ) / 5
    uniqueVersions := uniqMarkers.length
    versionedUrlCount := versioned.length }

/-- The five detections plus the dominant-pattern label. -/
structure Patterns where
  sequential : SeqPat
  slice : SeqPat
  qualityTiers : TierPat
  sizeVariations : SizePat
  versionVariations : VerPat
  dominantPattern : Str
  deriving Repr, DecidableEq

/-- The `reduce` of `identifyPatterns`: keys in declaration order, a
later key replaces the accumulator only when strictly more dominant. -/
def dominantPattern5 (sq sl : SeqPat) (qt : TierPat) (sv : SizePat) (vv : VerPat) : Str :=
  let pairs : List (Str × ℚ) :=
    [("sequential".data, sq.strength * sq.coverage),
     ("slice".data, sl.strength * sl.coverage),
     ("quality_tiers".data, qt.strength * qt.coverage),
     ("size_variations".data, sv.strength * sv.coverage),
     ("version_variations".data, vv.strength * vv.coverage)]
  match pairs with
  | [] => "sequential".data
  | p0 :: rest => (rest.foldl (fun acc p => if acc.2 > p.2 then acc else p) p0).1

/-- `identifyPatterns`. -/
def identifyPatterns (urls : List Str) : Patterns :=
  let sq := detectSequentialPattern urls
  let sl := detectSlicePattern urls
  let qt := detectQualityTiers urls
  let sv := detectSizeVariations urls
  let vv := detectVersionVariations urls
  ⟨sq, sl, qt, sv, vv, dominantPattern5 sq sl qt sv vv⟩

/-- Result of `assessQuality`. -/
structure QualityA where
  highQualityFrac : ℚ
  lowQualityFrac : ℚ
  overallQuality : Str
  deriving Repr, DecidableEq

/-- `assessQuality`: high above 500k pixels, low below 100k (with known
dimensions), overall by majority. -/
def assessQuality (urls : List Str) : QualityA :=
  let high := (urls.filter (fun u => decide (500000 < extractDims u))).length
  let low :=
    (urls.filter (fun u => decide (0 < extractDims u) && decide (extractDims u < 100000))).length
  { highQualityFrac := (high : ℚ) / (urls.length : ℚ)
    lowQualityFrac := (low : ℚ) / (urls.length : ℚ)
    overallQuality :=
      if low < high then "high".data else if high < low then "low".data else "mixed".data }

/-- Result of `detectRedundancy`. -/
structure RedundancyA where
  redundancyFrac : ℚ
  uniqueBaseNames : Nat
  avgPerBase : ℚ
  hasSignificantRedundancy : Bool
  deriving Repr, DecidableEq

/-- `extractBaseName` (see `strippedName`). -/
def extractBaseName (u : Str) : Str := strippedName u

/-- `detectRedundancy`: duplicate share by stripped base name, significant
above 30%. -/
def detectRedundancy (urls : List Str) : RedundancyA :=
  let uniq := (dedupF (urls.map extractBaseName)).length
  let dupCount := urls.length - uniq
  let frac : ℚ := (dupCount : ℚ) / (urls.length : ℚ)
  { redundancyFrac := frac
    uniqueBaseNames := uniq
    avgPerBase := (urls.length : ℚ) / (uniq : ℚ)
    -- dup/len > 0.3 ⟺ 3·len < 10·dup (exact, kernel-evaluable; both sides
    -- false for the empty collection, as in JavaScript where NaN > 0.3 is false)
    hasSignificantRedundancy := decide (3 * urls.length < 10 * dupCount) }

/-- A `FilterDecision` (rationale text omitted). -/
structure FilterDecision where
  strategy : Str
  confidence : ℚ
  action : Str
  maxScreenshots : Nat
  deriving Repr, DecidableEq

/-- The full per-collection analysis record. -/
structure Analysis where
  totalCount : Nat
  patterns : Patterns
  quality : QualityA
  redundancy : RedundancyA
  platform : Str
  deriving Repr, DecidableEq

/-- `getPlatformLimits`: `(reasonable, optimal)` base limits per platform
(unknown platforms fall back to the iPhone limits), both narrowed to a
detected sequence length when one exists and fits under the reasonable
limit. -/
def baseLimits (platform : Str) : Nat × Nat :=
  if platform = "iPhone".data then (8, 6)
  else if platform = "iPad".data then (10, 8)
  else if platform = "AppleTV".data then (6, 4)
  else (8, 6)

def getPlatformLimits (platform : Str) (a : Analysis) : Nat × Nat :=
  if a.patterns.sequential.found then
    if 0 < a.patterns.sequential.expectedCount ∧
        a.patterns.sequential.expectedCount ≤ (baseLimits platform).1 then
      (a.patterns.sequential.expectedCount, a.patterns.sequential.expectedCount)
    else baseLimits platform
  else baseLimits platform

/-- `determineFilteringStrategy`: the five rules in order, else no
filtering.  `Math.ceil` on the rational targets is `⌈·⌉.toNat` (the
arguments are nonnegative). -/
def determineFilteringStrategy (a : Analysis) : FilterDecision :=
  if a.patterns.sequential.found ∧ a.patterns.sequential.isComplete then
    ⟨"respect_sequence".data, 9 / 10, "keep_complete_sequence".data,
      a.patterns.sequential.expectedCount⟩
  else if a.patterns.slice.found ∧ a.patterns.slice.isComplete then
    ⟨"respect_slices".data, 9 / 10, "keep_complete_slices".data,
      a.patterns.slice.expectedCount⟩
  else if a.redundancy.hasSignificantRedundancy then
    ⟨"deduplicate_aggressive".data, 4 / 5, "aggressive_deduplication".data,
      max 3 (⌈(a.redundancy.uniqueBaseNames : ℚ) * (4 / 5)⌉.toNat)⟩
  else if a.patterns.qualityTiers.found ∧ a.quality.overallQuality = "mixed".data then
    ⟨"quality_filter".data, 7 / 10, "prefer_high_quality".data,
      max 4 (⌈(a.totalCount : ℚ) * (1 - a.patterns.qualityTiers.redundancy)⌉.toNat)⟩
  else if (getPlatformLimits a.platform a).1 < a.totalCount then
    ⟨"platform_optimize".data, 3 / 5, "apply_platform_limits".data,
      (getPlatformLimits a.platform a).2⟩
  else ⟨"none".data, 1, "keep_all".data, a.totalCount⟩

/-- Result of `analyzeCollection`: decision, full analysis (absent for
the empty-input early return), and the `needsFiltering` flag. -/
structure CollectionAnalysis where
  decision : FilterDecision
  analysis : Option Analysis
  needsFiltering : Bool
  deriving Repr, DecidableEq

/-- The analysis record `analyzeCollection` builds for a nonempty
collection. -/
def mkAnalysis (urls : List Str) (platform : Str) : Analysis :=
  ⟨urls.length, identifyPatterns urls, assessQuality urls, detectRedundancy urls, platform⟩

/-- `analyzeCollection`. -/
def analyzeCollection (urls : List Str) (platform : Str) : CollectionAnalysis :=
  if urls.isEmpty then ⟨⟨"none".data, 1, "keep_all".data, 0⟩, none, false⟩
  else
    let a := mkAnalysis urls platform
    let d := determineFilteringStrategy a
    ⟨d, some a, decide (d.strategy ≠ "none".data)⟩

end PatternAnalyzer

/-! ## Smart Filter (`lib/smart-filter.js`)

Executes the strategy recommended by the Pattern Analyzer.  One latent
type error of the untyped source is documented at
`aggressiveDeduplicate` below. -/

namespace SmartFilter

/-- `calculateQualityScore`: dimension base (capped at 10) plus the
version/format bonuses and penalties. -/
def calculateQualityScore (u : Str) : ℚ :=
  let dims := extractDims u
  (if 0 < dims then min ((dims : ℚ) / 100000) 10 else 0)
    + (if containsSub "_new".data u then 5 else 0)
    - (if containsSub "_orig".data u || containsSub "_retry".data u then 3 else 0)
    - (if containsSub "_thumb".data u then 5 else 0)
    + (if containsSub ".jpg".data u then 1 else 0)
    + (if containsSub ".png".data u ∧ extractDims u < 200000 then 2 else 0)
    - (if containsSub "300x0w".data u then 3 else 0)

/-- `isBetterUrl`: strictly higher quality score. -/
def isBetterUrl (a b : Str) : Bool :=
  decide (calculateQualityScore b < calculateQualityScore a)

/-- `respectSequentialPattern`: keep at most one URL per sequence index
`1..N` of the expected total (best score wins a collision), emitted in
index order, missing indices absent. -/
def respectSequentialPattern (urls : List Str) (expectedCount : Nat) : List Str :=
  let m : List (Nat × Str) :=
    urls.foldl
      (fun m u =>
        match seqMatch u with
        | some (k, n) =>
          if n = expectedCount ∧ 1 ≤ k ∧ k ≤ expectedCount then
            match getAssoc k m with
            | some ex => if isBetterUrl u ex then setAssoc k u m else m
            | none => setAssoc k u m
          else m
        | none => m)
      []
  (List.range expectedCount).filterMap (fun i => getAssoc (i + 1) m)

/-- `respectSlicePattern`: the same for slice indices `0..N-1`. -/
def respectSlicePattern (urls : List Str) (expectedCount : Nat) : List Str :=
  let m : List (Nat × Str) :=
    urls.foldl
      (fun m u =>
        match sliceMatch u with
        | some k =>
          if k < expectedCount then
            match getAssoc k m with
            | some ex => if isBetterUrl u ex then setAssoc k u m else m
            | none => setAssoc k u m
          else m
        | none => m)
      []
  (List.range expectedCount).filterMap (fun i => getAssoc i m)

/-- `extractContentIdentifier` (see `strippedName`). -/
def extractContentIdentifier (u : Str) : Str := strippedName u

/-- `selectBestFromGroup`: the group sorted by quality score descending
(singletons returned untouched). -/
def selectBestFromGroup (urls : List Str) : List Str :=
  if urls.length == 1 then urls
  else sortByCmp (fun a b => decide (calculateQualityScore b < calculateQualityScore a)) urls

/-- `assessGroupQuality`: mean quality score. -/
def assessGroupQuality (urls : List Str) : ℚ :=
  (urls.foldl (fun s u => s + calculateQualityScore u) 0) / (urls.length : ℚ)

/-- The take-until-target loop of `aggressiveDeduplicate`.  NOTE: at this
point the source executes `result.push(this.selectBestFromGroup(urls))`,
pushing the whole sorted group array instead of a single URL — a latent
type error of the untyped source.  No claim depends on the contents this
branch produces; the embedding keeps the list type by pushing the array's
first element (the best-scoring URL). -/
def takeGroupReps (target : Nat) : List (Str × List Str) → Nat → List Str
  | [], _ => []
  | g :: rest, taken =>
    if target ≤ taken then []
    else (selectBestFromGroup g.2).headD [] :: takeGroupReps target rest (taken + 1)

/-- `aggressiveDeduplicate`: group by stripped base name, rank groups by
mean quality, one representative per group up to the target count. -/
def aggressiveDeduplicate (urls : List Str) (targetCount : Nat) : List Str :=
  let groups := groupByKey extractContentIdentifier urls
  let sortedGroups :=
    sortByCmp (fun x y => decide (assessGroupQuality y.2 < assessGroupQuality x.2)) groups
  takeGroupReps targetCount sortedGroups 0

/-- `filterByQuality`: stable sort by score descending, take the target
count. -/
def filterByQuality (urls : List Str) (targetCount : Nat) : List Str :=
  (sortByCmp (fun a b => decide (calculateQualityScore b < calculateQualityScore a)) urls).take
    targetCount

/-- `calculateSimilarityKey`: rounded aspect ratio ×10, has-sequence and
has-slice flags, joined with `_`. -/
def calculateSimilarityKey (u : Str) : Str :=
  let w := match sizeMatch u with | some (w, _, _) => w | none => 0
  let h := match sizeMatch u with | some (_, h, _) => h | none => 0
  let aspect : ℤ := if 0 < w then jsRound ((h : ℚ) / (w : ℚ) * 10) else 0
  let boolStr : Bool → Str := fun b => if b then "true".data else "false".data
  (toString aspect).data ++ "_".data ++ boolStr (seqMatch u).isSome
    ++ "_".data ++ boolStr (sliceMatch u).isSome

/-- The proportional-allocation loop of `selectDiverseSet` (the `forEach`
skips groups once the remaining budget is 0). -/
def allocDiverse (target totalSize : Nat) : List (Str × List Str) → Nat → List Str
  | [], _ => []
  | g :: rest, remaining =>
    if remaining = 0 then allocDiverse target totalSize rest remaining
    else
      let groupTarget := max 1 (jsRound ((target : ℚ) * (g.2.length : ℚ) / (totalSize : ℚ))).toNat
      let takeCount := min (min groupTarget remaining) g.2.length
      (selectBestFromGroup g.2).take takeCount
        ++ allocDiverse target totalSize rest (remaining - takeCount)

/-- `selectDiverseSet`: group by similarity key, allocate the budget
proportionally (at least one per nonempty group while budget lasts). -/
def selectDiverseSet (urls : List Str) (targetCount : Nat) : List Str :=
  if urls.length ≤ targetCount then urls
  else
    let groups := groupByKey calculateSimilarityKey urls
    let totalSize := (groups.map (fun g => g.2.length)).sum
    (allocDiverse targetCount totalSize groups targetCount).take targetCount

/-- `applyStrategy`. -/
def applyStrategy (urls : List Str) (d : PatternAnalyzer.FilterDecision) : List Str :=
  if d.strategy = "respect_sequence".data then respectSequentialPattern urls d.maxScreenshots
  else if d.strategy = "respect_slices".data then respectSlicePattern urls d.maxScreenshots
  else if d.strategy = "deduplicate_aggressive".data then
    aggressiveDeduplicate urls d.maxScreenshots
  else if d.strategy = "quality_filter".data then filterByQuality urls d.maxScreenshots
  else if d.strategy = "platform_optimize".data then selectDiverseSet urls d.maxScreenshots
  else urls

/-- `filter`: run the analyzer; pass the input through unchanged when no
filtering is needed. -/
def filter (urls : List Str) (platform : Str) : List Str :=
  if urls.isEmpty then []
  else
    let analysis := PatternAnalyzer.analyzeCollection urls platform
    if !analysis.needsFiltering then urls
    else applyStrategy urls analysis.decision

end SmartFilter

/-! ## Web-page extraction (`lib/screenshot-fallback.js`)

The group-selection stage: candidate URL groups (keyed by the
`uuid/filename` base pattern) are classified per device with a weighted
confidence, stably sorted, and taken one best-quality URL per group up to
a per-device cap, followed by a semantic-duplicate pass on version
suffixes. -/

namespace ScreenshotFallback

/-- `groupScreenshotsByPattern`: group candidate URLs by
`uuid/filename`, dropping URLs the base-pattern regex does not match. -/
def groupScreenshotsByPattern (urls : List Str) : List (Str × List Str) :=
  urls.foldl
    (fun g u =>
      match uuidFileMatch u with
      | some (uuid, filename) => insertPush (uuid ++ "/".data ++ filename) u g
      | none => g)
    []

/-- A classified pattern group. -/
structure PatGroup where
  pat : Str
  urls : List Str
  deviceType : Str
  confidence : ℤ
  count : Nat
  deriving Repr, DecidableEq

/-- The classification body of `selectPrimaryScreenshotGroups`: device
type from the first URL of the group, confidence from device markers,
sequential naming, version suffix, `ImageGen`, and the singleton
penalty. -/
def classifyGroup (pg : Str × List Str) : PatGroup :=
  let pattern := pg.1
  let urls := pg.2
  let sampleUrl := urls.headD []
  let dc : Str × ℤ :=
    if containsSub "iPad".data sampleUrl || containsSub "Slice_".data sampleUrl ||
        containsSub "2048x2732".data sampleUrl || containsSub "APP_IPAD_PRO".data sampleUrl then
      ("ipad".data,
        2 + (if containsSub "APP_IPAD_PRO".data sampleUrl then 2 else 0)
          + (if containsSub "iPad13".data sampleUrl || containsSub "iPad12".data sampleUrl then 2
             else 0))
    else if containsSub "appletv".data sampleUrl || containsSub "AppleTV".data sampleUrl ||
        containsSub "1920x1080".data sampleUrl then
      ("appletv".data, 2)
    else if containsSub "1242x2688".data sampleUrl || containsSub "ImageGen".data sampleUrl then
      ("iphone".data, 2)
    else ("iphone".data, 0)
  let c2 := dc.2 + (if containsSub "_of_".data pattern then 3 else 0)
  let c3 := c2 +
    (if containsSub "_new.".data pattern then 1
     else if containsSub "_orig.".data pattern then -1
     else 0)
  let c4 := c3 + (if containsSub "ImageGen".data pattern then 2 else 0)
  let c5 := c4 - (if urls.length == 1 then 1 else 0)
  ⟨pattern, urls, dc.1, c5, urls.length⟩

/-- `selectBestQualityUrl`: `reduce` keeping the larger pixel area
(strictly larger replaces). -/
def selectBestQualityUrl (urls : List Str) : Str :=
  match urls with
  | [] => []
  | x :: xs => xs.foldl (fun best cur => if extractDims best < extractDims cur then cur else best) x

/-- Does a filename end in `_(new|orig|updated|v\d+)`? -/
def endVerTokAt (l : Str) : Bool :=
  match l with
  | '_' :: rest =>
    rest == "new".data || rest == "orig".data || rest == "updated".data ||
      (match rest with
       | 'v' :: ds => !ds.isEmpty && ds.all Char.isDigit
       | _ => false)
  | _ => false

/-- `filename.replace(/_(new|orig|updated|v\d+)$/, '')`: cut at the
leftmost position whose whole suffix is a version token. -/
def removeEndVersion : Str → Str
  | [] => []
  | c :: cs => if endVerTokAt (c :: cs) then [] else c :: removeEndVersion cs

/-- `deduplicateSemanticDuplicates`: keep the first URL per
version-stripped base pattern; URLs the base-pattern regex cannot parse
are kept unconditionally. -/
def deduplicateSemanticDuplicates (screenshots : List Str) : List Str :=
  (screenshots.foldl
    (fun (st : List Str × List Str) u =>
      match uuidFileMatch u with
      | some uf =>
        let base := removeEndVersion uf.2
        if base ∈ st.1 then st else (st.1 ++ [base], st.2 ++ [u])
      | none => (st.1, st.2 ++ [u]))
    ([], [])).2

/-- The per-device selection loop: stop at the cap; the first accepted
group needs confidence ≥ 1, later ones ≥ 2; one best-quality URL per
accepted group. -/
def selectDeviceUrls (maxN : Nat) : List PatGroup → Nat → List Str
  | [], _ => []
  | g :: rest, taken =>
    if maxN ≤ taken then []
    else
      let minConf : ℤ := if taken = 0 then 1 else 2
      if minConf ≤ g.confidence then
        selectBestQualityUrl g.urls :: selectDeviceUrls maxN rest (taken + 1)
      else selectDeviceUrls maxN rest taken

/-- The three per-device selections. -/
structure DeviceGroups where
  iphone : List Str
  ipad : List Str
  appletv : List Str
  deriving Repr, DecidableEq

/-- `selectPrimaryScreenshotGroups`: classify all groups, then per device
sort by confidence (count as tie-break) and take up to the cap —
`deviceType === 'iphone' ? 8 : 6` in the source, so 8 for iPhone and 6
for iPad and Apple TV — then run the semantic-duplicate pass. -/
def selectPrimaryScreenshotGroups (grouped : List (Str × List Str)) : DeviceGroups :=
  let patternGroups := grouped.map classifyGroup
  let pick : Str → Nat → List Str := fun dt maxN =>
    let devicePatterns :=
      sortByCmp
        (fun x y =>
          decide (y.confidence < x.confidence ∨
            (y.confidence = x.confidence ∧ y.count < x.count)))
        (patternGroups.filter (fun g => g.deviceType = dt))
    selectDeviceUrls maxN devicePatterns 0
  ⟨deduplicateSemanticDuplicates (pick "iphone".data 8),
   deduplicateSemanticDuplicates (pick "ipad".data 6),
   deduplicateSemanticDuplicates (pick "appletv".data 6)⟩

end ScreenshotFallback

/-! ## Screenshot Chain (`lib/screenshot-chain.js`)

The orchestrator.  Network and validator outcomes are supplied by a
`ChainEnv` oracle: `webShots k` is the outcome of the web-scraping body
of attempt `k` (`Except.error` models a thrown exception reaching the
`catch` of `tryWebScraping`), and `validPrimary` / `validWeb k` the
validator results the respective calls observe (the validator itself
never throws — its own `catch` returns a result object).  The
exponential-backoff `delay` only affects timing and is not modelled.
`extract` is typed `Except Str AppData` so that "never raises" is a
statement: every raising path of the body is caught, and the theorems
show the result is always `Except.ok`. -/

namespace ScreenshotChain

/-- The three collections `extractScreenshotsFromWeb` returns. -/
structure WebShots where
  phone : List Str
  tablet : List Str
  tv : List Str
  deriving Repr, DecidableEq

/-- Environment oracle for one `extract` call. -/
structure ChainEnv where
  webShots : Nat → Except Str WebShots
  validPrimary : ScreenshotValidator.VR
  validWeb : Nat → ScreenshotValidator.VR

/-- The options object of `extract` with its defaults. -/
structure ChainOpts where
  forceRefresh : Bool
  skipValidation : Bool
  maxRetries : Nat
  deriving Repr, DecidableEq

/-- `processScreenshots`: per collection, `[...new Set(·)].filter(Boolean)`,
then content deduplication and smart filtering, each stage only applied
to nonempty collections; every other field of the record is spread
through. -/
def processScreenshots (d : AppData) : AppData :=
  let s0 := (dedupF d.screenshots).filter strTruthy
  let i0 := (dedupF d.ipadScreenshots).filter strTruthy
  let t0 := (dedupF d.appletvScreenshots).filter strTruthy
  let s1 := if 0 < s0.length then ContentDeduplicator.deduplicate s0 "iPhone".data else s0
  let i1 := if 0 < i0.length then ContentDeduplicator.deduplicate i0 "iPad".data else i0
  let t1 := if 0 < t0.length then ContentDeduplicator.deduplicate t0 "AppleTV".data else t0
  let s2 := if 0 < s1.length then SmartFilter.filter s1 "iPhone".data else s1
  let i2 := if 0 < i1.length then SmartFilter.filter i1 "iPad".data else i1
  let t2 := if 0 < t1.length then SmartFilter.filter t1 "AppleTV".data else t1
  { d with screenshots := s2, ipadScreenshots := i2, appletvScreenshots := t2 }

/-- Outcome of `tryItunesApi`. -/
inductive ApiRes where
  | accepted (d : AppData)
  | rejected (reason : Str)
  deriving Repr, DecidableEq

/-- `tryItunesApi`: reject when both the phone and the tablet collection
are empty (the tv collection is not consulted); otherwise validate
(unless skipped) and return the processed record.  The surrounding
`try/catch` is dead here because every step of the body is total. -/
def tryItunesApi (d : AppData) (skipValidation : Bool) (v : ScreenshotValidator.VR) : ApiRes :=
  let hasIphone := !d.screenshots.isEmpty
  let hasIpad := !d.ipadScreenshots.isEmpty
  if !hasIphone && !hasIpad then .rejected "no_screenshots_in_api".data
  else if !skipValidation && !v.isValid then .rejected "validation_failed".data
  else .accepted (processScreenshots d)

/-- Outcome of `tryWebScraping` (the `error` field of the failure object
feeds `_lastError`). -/
inductive WebRes where
  | accepted (d : AppData)
  | rejected (reason : Str) (err : Option Str)
  deriving Repr, DecidableEq

/-- `tryWebScraping`: a thrown scrape is caught into
`web_scraping_error`; zero candidates across the three platforms is
`no_screenshots_extracted`; otherwise process, and (unless skipped)
reject when the validator result is invalid with confidence below 0.5. -/
def tryWebScraping (d : AppData) (attempt : Nat) (skipValidation : Bool)
    (env : ChainEnv) : WebRes :=
  match env.webShots attempt with
  | .error m => .rejected "web_scraping_error".data (some m)
  | .ok w =>
    if w.phone.length + w.tablet.length + w.tv.length = 0 then
      .rejected "no_screenshots_extracted".data none
    else
      let processed := processScreenshots
        { d with screenshots := w.phone, ipadScreenshots := w.tablet,
                 appletvScreenshots := w.tv }
      let v := env.validWeb attempt
      if !skipValidation && !v.isValid && decide (v.confidence < 1 / 2) then
        .rejected "web_validation_failed".data none
      else .accepted processed

/-- `createFallbackResult`: annotate the record with the warning and
`lastError?.message || 'Unknown error'`, then process it (the inner
`try/catch` is dead because `processScreenshots` is total; the `|| []`
re-defaults of the arrays are identities on typed lists). -/
def createFallbackResult (d : AppData) (lastErr : Option Str) : AppData :=
  processScreenshots
    { d with
        warningTag := some "Screenshot extraction failed, using available data".data,
        lastErrMsg := some (lastErr.getD "Unknown error".data) }

/-- The retry loop of step 2: `remaining` counts attempts left, `attempt`
is the 1-based attempt number; a failed attempt overwrites `lastErr` with
the failure's `error` field (possibly clearing it), exactly as
`lastError = webResult.error` does. -/
def scrapeLoop (d : AppData) (skipValidation : Bool) (env : ChainEnv) :
    Nat → Nat → Option Str → AppData
  | 0, _, lastErr => createFallbackResult d lastErr
  | r + 1, attempt, _ =>
    match tryWebScraping d attempt skipValidation env with
    | .accepted data => data
    | .rejected _ e => scrapeLoop d skipValidation env r (attempt + 1) e

/-- `extract`: unless `forceRefresh`, try the primary source; then up to
`maxRetries` scrape attempts; finally the annotated fallback.  Typed as
`Except` to express that no raising path escapes. -/
def extract (d : AppData) (opts : ChainOpts) (env : ChainEnv) : Except Str AppData :=
  let primary : Option AppData :=
    if !opts.forceRefresh then
      match tryItunesApi d opts.skipValidation env.validPrimary with
      | .accepted data => some data
      | .rejected _ => none
    else none
  match primary with
  | some r => .ok r
  | none => .ok (scrapeLoop d opts.skipValidation env opts.maxRetries 1 none)

end ScreenshotChain

/-- The number of distinct content identifiers `deduplicate` derives from
its input: identifiers of the truthy URLs under the dominant scheme of
the whole input (the random value is irrelevant, see
`fallbackId_rand_irrel`). -/
def ContentDeduplicator.distinctContentIdCount (urls : List Str) : Nat :=
  (dedupF ((urls.filter strTruthy).map
    (ContentDeduplicator.extractContentId "0".data
      (ContentDeduplicator.analyzeUrlPatterns urls)))).length

/-! # Theorems

Generic lemmas about the collection models first, then the development
for each claim. -/

theorem insertByCmp_perm {α : Type} (lt : α → α → Bool) (x : α) :
    ∀ l : List α, (insertByCmp lt x l).Perm (x :: l)
  | [] => List.Perm.refl _
  | y :: ys => by
    simp only [insertByCmp]
    split
    · exact ((insertByCmp_perm lt x ys).cons y).trans (List.Perm.swap x y ys)
    · exact List.Perm.refl _

theorem sortByCmp_perm {α : Type} (lt : α → α → Bool) :
    ∀ l : List α, (sortByCmp lt l).Perm l
  | [] => List.Perm.refl _
  | x :: xs => (insertByCmp_perm lt x _).trans ((sortByCmp_perm lt xs).cons x)

theorem sortByCmp_length {α : Type} (lt : α → α → Bool) (l : List α) :
    (sortByCmp lt l).length = l.length :=
  (sortByCmp_perm lt l).length_eq

theorem mem_sortByCmp {α : Type} (lt : α → α → Bool) {a : α} {l : List α} :
    a ∈ sortByCmp lt l ↔ a ∈ l :=
  (sortByCmp_perm lt l).mem_iff

/-- If elements satisfying `P` strictly precede the others under the
comparator, the head of the sorted list satisfies `P` whenever some
element does. -/
theorem sortByCmp_headD_prop {α : Type} (P : α → Prop) (lt : α → α → Bool) (d : α)
    (h1 : ∀ a b, P a → ¬ P b → lt a b = true)
    (h2 : ∀ a b, ¬ P a → P b → lt a b = false)
    (l : List α) : (∃ a ∈ l, P a) → P ((sortByCmp lt l).headD d) := by
  induction l with
  | nil => rintro ⟨a, ha, -⟩; cases ha
  | cons x xs ih =>
    rintro ⟨a, ha, hPa⟩
    show P ((insertByCmp lt x (sortByCmp lt xs)).headD d)
    rcases hs : sortByCmp lt xs with - | ⟨h, t⟩
    · have hperm := sortByCmp_perm lt xs
      rw [hs] at hperm
      have hxs : xs = [] := hperm.symm.eq_nil
      subst hxs
      have hax : a = x := by simpa using ha
      subst hax
      simpa [insertByCmp] using hPa
    · simp only [insertByCmp]
      by_cases hx : P x
      · cases hcond : lt h x with
        | false => simpa [hcond] using hx
        | true =>
          by_cases hh : P h
          · simpa [hcond] using hh
          · exact absurd hcond (by simp [h2 h x hh hx])
      · have hmemxs : ∃ a ∈ xs, P a := by
          rcases List.mem_cons.mp ha with rfl | hmem
          · exact absurd hPa hx
          · exact ⟨a, hmem, hPa⟩
        have hPh : P h := by
          have hres := ih hmemxs
          rw [hs] at hres
          simpa using hres
        have hlt : lt h x = true := h1 h x hPh hx
        simpa [hlt] using hPh

theorem mem_foldl_pushAbsent {α : Type} [DecidableEq α] (x : α) :
    ∀ (l acc : List α), (x ∈ l.foldl pushAbsent acc ↔ x ∈ acc ∨ x ∈ l) := by
  intro l
  induction l with
  | nil => intro acc; simp
  | cons y ys ih =>
    intro acc
    rw [List.foldl_cons, ih]
    unfold pushAbsent
    split
    · rename_i hy
      simp only [List.mem_cons]
      constructor
      · rintro (h1 | h1)
        · exact Or.inl h1
        · exact Or.inr (Or.inr h1)
      · rintro (h1 | h1 | h1)
        · exact Or.inl h1
        · exact Or.inl (h1 ▸ hy)
        · exact Or.inr h1
    · simp only [List.mem_append, List.mem_cons, List.mem_singleton]
      tauto

theorem mem_dedupF {α : Type} [DecidableEq α] {x : α} {l : List α} :
    x ∈ dedupF l ↔ x ∈ l := by
  unfold dedupF
  rw [mem_foldl_pushAbsent]
  simp

theorem nodup_foldl_pushAbsent {α : Type} [DecidableEq α] :
    ∀ (l acc : List α), acc.Nodup → (l.foldl pushAbsent acc).Nodup := by
  intro l
  induction l with
  | nil => intro acc h; simpa using h
  | cons y ys ih =>
    intro acc h
    rw [List.foldl_cons]
    apply ih
    unfold pushAbsent
    split
    · exact h
    · rename_i hy
      simp only [List.nodup_append, List.nodup_cons, List.nodup_nil]
      refine ⟨h, by simp, ?_⟩
      intro a ha hay
      rw [List.mem_singleton] at hay
      exact hy (hay ▸ ha)

theorem dedupF_nodup {α : Type} [DecidableEq α] (l : List α) : (dedupF l).Nodup :=
  nodup_foldl_pushAbsent l [] (by simp)

theorem length_foldl_pushAbsent_le {α : Type} [DecidableEq α] :
    ∀ (l acc : List α), (l.foldl pushAbsent acc).length ≤ acc.length + l.length := by
  intro l
  induction l with
  | nil => intro acc; simp
  | cons y ys ih =>
    intro acc
    rw [List.foldl_cons]
    refine le_trans (ih _) ?_
    have hpa : (pushAbsent acc y).length ≤ acc.length + 1 := by
      unfold pushAbsent; split <;> simp
    simpa [Nat.add_comm, Nat.add_left_comm] using Nat.add_le_add_right hpa ys.length

theorem dedupF_length_le {α : Type} [DecidableEq α] (l : List α) :
    (dedupF l).length ≤ l.length := by
  simpa using length_foldl_pushAbsent_le l []

theorem pushAbsent_map_inj {α β : Type} [DecidableEq α] [DecidableEq β] {f : α → β}
    (hf : Function.Injective f) (acc : List α) (x : α) :
    pushAbsent (acc.map f) (f x) = (pushAbsent acc x).map f := by
  unfold pushAbsent
  have hmem : f x ∈ acc.map f ↔ x ∈ acc := by
    constructor
    · intro h
      rcases List.mem_map.mp h with ⟨a, ha, hfa⟩
      exact (hf hfa) ▸ ha
    · exact fun h => List.mem_map_of_mem f h
  rw [if_congr hmem rfl rfl]
  split <;> simp

theorem foldl_pushAbsent_map_inj {α β : Type} [DecidableEq α] [DecidableEq β] {f : α → β}
    (hf : Function.Injective f) :
    ∀ (l acc : List α),
      (l.map f).foldl pushAbsent (acc.map f) = (l.foldl pushAbsent acc).map f := by
  intro l
  induction l with
  | nil => intro acc; simp
  | cons y ys ih =>
    intro acc
    simp only [List.map_cons, List.foldl_cons]
    rw [pushAbsent_map_inj hf, ih]

theorem dedupF_map_inj {α β : Type} [DecidableEq α] [DecidableEq β] {f : α → β}
    (hf : Function.Injective f) (l : List α) : dedupF (l.map f) = (dedupF l).map f := by
  unfold dedupF
  simpa using foldl_pushAbsent_map_inj hf l []

theorem dedupF_map_inj_length {α β : Type} [DecidableEq α] [DecidableEq β] {f : α → β}
    (hf : Function.Injective f) (l : List α) :
    (dedupF (l.map f)).length = (dedupF l).length := by
  rw [dedupF_map_inj hf]
  exact List.length_map _ _

theorem insertPush_keys {α β : Type} [DecidableEq α] (k : α) (v : β) :
    ∀ g : List (α × List β), (insertPush k v g).map Prod.fst = pushAbsent (g.map Prod.fst) k := by
  intro g
  induction g with
  | nil => simp [insertPush, pushAbsent]
  | cons p t ih =>
    rcases p with ⟨k', vs⟩
    simp only [insertPush]
    split
    · rename_i hkk
      subst hkk
      simp [pushAbsent]
    · rename_i hkk
      simp only [List.map_cons, ih, pushAbsent]
      by_cases hmem : k ∈ t.map Prod.fst
      · simp [hmem, List.mem_cons, hkk]
      · simp [hmem, List.mem_cons, hkk]

theorem groupByKey_keys_gen {α β : Type} [DecidableEq α] (key : β → α) :
    ∀ (l : List β) (g : List (α × List β)),
      (l.foldl (fun g u => insertPush (key u) u g) g).map Prod.fst
        = (l.map key).foldl pushAbsent (g.map Prod.fst) := by
  intro l
  induction l with
  | nil => intro g; simp
  | cons u us ih =>
    intro g
    simp only [List.foldl_cons, List.map_cons]
    rw [ih, insertPush_keys]

theorem groupByKey_keys {α β : Type} [DecidableEq α] (key : β → α) (l : List β) :
    (groupByKey key l).map Prod.fst = dedupF (l.map key) := by
  unfold groupByKey dedupF
  simpa using groupByKey_keys_gen key l []

theorem groupByKey_keys_nodup {α β : Type} [DecidableEq α] (key : β → α) (l : List β) :
    ((groupByKey key l).map Prod.fst).Nodup := by
  rw [groupByKey_keys]
  exact dedupF_nodup _

theorem insertPush_wf {α β : Type} [DecidableEq α] {key : β → α} {k : α} {v : β}
    (hkv : key v = k) :
    ∀ g : List (α × List β),
      (∀ p ∈ g, p.2 ≠ [] ∧ ∀ w ∈ p.2, key w = p.1) →
      ∀ p ∈ insertPush k v g, p.2 ≠ [] ∧ ∀ w ∈ p.2, key w = p.1 := by
  intro g
  induction g with
  | nil =>
    intro _hg p hp
    rcases List.mem_singleton.mp hp with rfl
    exact ⟨by simp, by simpa using hkv⟩
  | cons q t ih =>
    rcases q with ⟨k', vs⟩
    intro hg p hp
    simp only [insertPush] at hp
    split at hp
    · rename_i hkk
      rcases List.mem_cons.mp hp with rfl | hpt
      · have hq := hg (k', vs) (List.mem_cons_self _ _)
        refine ⟨by simp, ?_⟩
        intro w hw
        rcases List.mem_append.mp hw with hw1 | hw2
        · exact hq.2 w hw1
        · rw [List.mem_singleton] at hw2
          subst hw2
          simpa [← hkk] using hkv
      · exact hg p (List.mem_cons_of_mem _ hpt)
    · rcases List.mem_cons.mp hp with heq | hpt
      · subst heq
        exact hg (k', vs) (List.mem_cons_self _ _)
      · exact ih (fun q hq => hg q (List.mem_cons_of_mem _ hq)) p hpt

theorem groupByKey_wf_gen {α β : Type} [DecidableEq α] (key : β → α) :
    ∀ (l : List β) (g : List (α × List β)),
      (∀ p ∈ g, p.2 ≠ [] ∧ ∀ w ∈ p.2, key w = p.1) →
      ∀ p ∈ l.foldl (fun g u => insertPush (key u) u g) g,
        p.2 ≠ [] ∧ ∀ w ∈ p.2, key w = p.1 := by
  intro l
  induction l with
  | nil => intro g hg; simpa using hg
  | cons u us ih =>
    intro g hg
    rw [List.foldl_cons]
    exact ih _ (insertPush_wf rfl g hg)

theorem groupByKey_wf {α β : Type} [DecidableEq α] (key : β → α) (l : List β) :
    ∀ p ∈ groupByKey key l, p.2 ≠ [] ∧ ∀ w ∈ p.2, key w = p.1 :=
  groupByKey_wf_gen key l [] (by simp)

theorem covered_insertPush_old {α β : Type} [DecidableEq α] (k : α) (v : β) {k0 : α} {v0 : β} :
    ∀ g : List (α × List β),
      (∃ vs, (k0, vs) ∈ g ∧ v0 ∈ vs) →
      ∃ vs, (k0, vs) ∈ insertPush k v g ∧ v0 ∈ vs := by
  intro g
  induction g with
  | nil => rintro ⟨vs, hvs, -⟩; cases hvs
  | cons q t ih =>
    rcases q with ⟨k', vs'⟩
    rintro ⟨vs, hvs, hv0⟩
    simp only [insertPush]
    split
    · rename_i hkk
      rcases List.mem_cons.mp hvs with heq | hpt
      · rcases Prod.mk.injEq .. ▸ heq with ⟨rfl, rfl⟩
        exact ⟨vs ++ [v], List.mem_cons_self _ _, List.mem_append.mpr (Or.inl hv0)⟩
      · exact ⟨vs, List.mem_cons_of_mem _ hpt, hv0⟩
    · rcases List.mem_cons.mp hvs with heq | hpt
      · exact ⟨vs, heq ▸ List.mem_cons_self _ _, hv0⟩
      · rcases ih ⟨vs, hpt, hv0⟩ with ⟨ws, hws, hv0'⟩
        exact ⟨ws, List.mem_cons_of_mem _ hws, hv0'⟩

theorem covered_insertPush_new {α β : Type} [DecidableEq α] (k : α) (v : β) :
    ∀ g : List (α × List β), ∃ vs, (k, vs) ∈ insertPush k v g ∧ v ∈ vs := by
  intro g
  induction g with
  | nil => exact ⟨[v], by simp [insertPush], by simp⟩
  | cons q t ih =>
    rcases q with ⟨k', vs'⟩
    simp only [insertPush]
    split
    · rename_i hkk
      subst hkk
      exact ⟨vs' ++ [v], List.mem_cons_self _ _, List.mem_append.mpr (Or.inr (by simp))⟩
    · rcases ih with ⟨ws, hws, hv⟩
      exact ⟨ws, List.mem_cons_of_mem _ hws, hv⟩

theorem groupByKey_covers_gen {α β : Type} [DecidableEq α] (key : β → α) (u : β) :
    ∀ (l : List β) (g : List (α × List β)),
      ((∃ vs, (key u, vs) ∈ g ∧ u ∈ vs) ∨ u ∈ l) →
      ∃ vs, (key u, vs) ∈ l.foldl (fun g w => insertPush (key w) w g) g ∧ u ∈ vs := by
  intro l
  induction l with
  | nil =>
    rintro g (hcov | hmem)
    · simpa using hcov
    · cases hmem
  | cons w ws ih =>
    rintro g (hcov | hmem)
    · exact ih _ (Or.inl (covered_insertPush_old (key w) w g hcov))
    · rcases List.mem_cons.mp hmem with rfl | hmem'
      · exact ih _ (Or.inl (covered_insertPush_new (key u) u g))
      · exact ih _ (Or.inr hmem')

theorem groupByKey_covers {α β : Type} [DecidableEq α] (key : β → α) (l : List β) (u : β)
    (hu : u ∈ l) : ∃ vs, (key u, vs) ∈ groupByKey key l ∧ u ∈ vs :=
  groupByKey_covers_gen key u l [] (Or.inr hu)

theorem assoc_nodup_eq {α β : Type} {G : List (α × β)} (h : (G.map Prod.fst).Nodup)
    {k : α} {v v' : β} (h1 : (k, v) ∈ G) (h2 : (k, v') ∈ G) : v = v' := by
  induction G with
  | nil => cases h1
  | cons p t ih =>
    rw [List.map_cons, List.nodup_cons] at h
    rcases List.mem_cons.mp h1 with e1 | m1
    · rcases List.mem_cons.mp h2 with e2 | m2
      · rw [← e1] at e2
        exact (Prod.mk.injEq .. ▸ e2).2.symm
      · exfalso
        apply h.1
        have : p.1 = k := by rw [← e1]
        rw [this]
        exact List.mem_map_of_mem Prod.fst m2
    · rcases List.mem_cons.mp h2 with e2 | m2
      · exfalso
        apply h.1
        have : p.1 = k := by rw [← e2]
        rw [this]
        exact List.mem_map_of_mem Prod.fst m1
      · exact ih h.2 m1 m2

theorem getAssoc_setAssoc_self {α β : Type} [DecidableEq α] (k : α) (v : β) :
    ∀ m : List (α × β), getAssoc k (setAssoc k v m) = some v := by
  intro m
  induction m with
  | nil => simp [setAssoc, getAssoc]
  | cons p t ih =>
    rcases p with ⟨k', v'⟩
    simp only [setAssoc]
    split
    · simp [getAssoc]
    · rename_i hkk
      simp only [getAssoc]
      rw [if_neg hkk]
      exact ih

/-! ### Content Deduplicator lemmas -/

namespace ContentDeduplicator

theorem fallbackPrefix_isEmpty (x : Str) : ("fallback_".data ++ x).isEmpty = false := rfl

/-- The `||` fallback of `fallbackId` is dead: the template literal is
never falsy. -/
theorem fallbackId_eq (r u : Str) : fallbackId r u = "fallback_".data ++ cleanedBase u := by
  unfold fallbackId
  simp [fallbackPrefix_isEmpty]

theorem fallbackId_rand_irrel (r r' u : Str) : fallbackId r u = fallbackId r' u := by
  rw [fallbackId_eq, fallbackId_eq]

theorem extractContentId_rand_irrel (r r' : Str) (a : UrlAnalysis) (u : Str) :
    extractContentId r a u = extractContentId r' a u := by
  unfold extractContentId
  rw [show fallbackId r = fallbackId r' from funext fun u => fallbackId_rand_irrel r r' u]

theorem deduplicateR_rand_irrel (r r' : Str) (urls : List Str) (platform : Str) :
    deduplicateR r urls platform = deduplicateR r' urls platform := by
  unfold deduplicateR
  rw [show extractContentId r (analyzeUrlPatterns urls)
        = extractContentId r' (analyzeUrlPatterns urls) from
      funext fun u => extractContentId_rand_irrel r r' _ u]

/-- When the dominant pattern is `unknown`, every content id is the
fallback id. -/
theorem extractContentIdW_unknown (fb : Str → Str) (a : UrlAnalysis) (u : Str)
    (h : a.dominantPattern = "unknown".data) : extractContentIdW fb a u = fb u := by
  unfold extractContentIdW
  rw [h, if_neg (by decide), if_neg (by decide), if_neg (by decide), if_neg (by decide)]

theorem headD_mem {α : Type} {l : List α} (d : α) (h : l ≠ []) : l.headD d ∈ l := by
  cases l with
  | nil => exact absurd rfl h
  | cons a t => exact List.mem_cons_self a t

theorem selectBestUrl_mem (platform : Str) (g : List Str) (h : g ≠ []) :
    selectBestUrl platform g ∈ g := by
  unfold selectBestUrl
  rw [← mem_sortByCmp (fun a b => decide (cmpBest platform a b < 0))]
  apply headD_mem
  intro hnil
  apply h
  have := sortByCmp_length (fun a b => decide (cmpBest platform a b < 0)) g
  rw [hnil] at this
  exact List.length_eq_zero.mp this.symm

theorem pickRepresentative_mem (platform : Str) (g : List Str) (h : g ≠ []) :
    pickRepresentative platform g ∈ g := by
  unfold pickRepresentative
  split
  · apply headD_mem _ h
  · exact selectBestUrl_mem platform g h

theorem cmpBest_new_first (platform a b : Str) (ha : containsSub "_new".data a = true)
    (hb : containsSub "_new".data b = false) :
    decide (cmpBest platform a b < 0) = true := by
  simp [cmpBest, ha, hb]

theorem cmpBest_new_second (platform a b : Str) (ha : containsSub "_new".data a = false)
    (hb : containsSub "_new".data b = true) :
    decide (cmpBest platform a b < 0) = false := by
  simp [cmpBest, ha, hb]

/-- `selectBestUrl` prefers a `_new` variant whenever the group has
one. -/
theorem selectBestUrl_new (platform : Str) (g : List Str)
    (h : ∃ u ∈ g, containsSub "_new".data u = true) :
    containsSub "_new".data (selectBestUrl platform g) = true := by
  unfold selectBestUrl
  refine sortByCmp_headD_prop (fun u => containsSub "_new".data u = true) _ []
    ?_ ?_ g h
  · intro a b hPa hPb
    exact cmpBest_new_first platform a b hPa (by simpa using hPb)
  · intro a b hPa hPb
    exact cmpBest_new_second platform a b (by simpa using hPa) hPb

theorem pickRepresentative_new (platform : Str) (g : List Str)
    (h : ∃ u ∈ g, containsSub "_new".data u = true) :
    containsSub "_new".data (pickRepresentative platform g) = true := by
  unfold pickRepresentative
  split
  · rcases h with ⟨u, hu, hnew⟩
    rename_i hlen
    have hg : g = [u] := by
      cases g with
      | nil => cases hu
      | cons a t =>
        cases t with
        | nil => simpa using (List.mem_singleton.mp hu) ▸ rfl
        | cons b t' => simp at hlen
    subst hg
    simpa using hnew
  · exact selectBestUrl_new platform g h

/-- Output length of the grouping-and-representatives pipeline: one URL
per distinct content id of the truthy input URLs. -/
theorem dedupCore_length (cid : Str → Str) (platform : Str) (urls : List Str) :
    (dedupCore cid platform urls).length
      = (dedupF ((urls.filter strTruthy).map cid)).length := by
  unfold dedupCore sortRepresentatives groupByContent
  rw [sortByCmp_length, List.length_map, ← groupByKey_keys cid (urls.filter strTruthy),
    List.length_map]

/-- Every representative with a `_new` sibling in its content group is
itself a `_new` variant. -/
theorem dedupCore_mem_new (cid : Str → Str) (platform : Str) (urls : List Str) :
    ∀ u ∈ dedupCore cid platform urls,
      (∃ v ∈ urls, strTruthy v = true ∧ cid v = cid u ∧ containsSub "_new".data v = true) →
      containsSub "_new".data u = true := by
  intro u hu hex
  rcases hex with ⟨v, hv, hvt, hcid, hvnew⟩
  unfold dedupCore sortRepresentatives groupByContent at hu
  rw [mem_sortByCmp] at hu
  rcases List.mem_map.mp hu with ⟨kg, hkg, hpick⟩
  rcases kg with ⟨k, g⟩
  have hwf := groupByKey_wf cid (urls.filter strTruthy) (k, g) hkg
  have hne : g ≠ [] := hwf.1
  have humem : u ∈ g := hpick ▸ pickRepresentative_mem platform g hne
  have hcidu : cid u = k := hwf.2 u humem
  have hvfil : v ∈ urls.filter strTruthy := List.mem_filter.mpr ⟨hv, hvt⟩
  rcases groupByKey_covers cid (urls.filter strTruthy) v hvfil with ⟨vs, hvs, hvvs⟩
  have hkeys := groupByKey_keys_nodup cid (urls.filter strTruthy)
  have hveq : cid v = k := by rw [hcid, hcidu]
  rw [hveq] at hvs
  have hvsg : vs = g := assoc_nodup_eq hkeys hvs hkg
  rw [hvsg] at hvvs
  exact hpick ▸ pickRepresentative_new platform g ⟨v, hvvs, hvnew⟩

end ContentDeduplicator

theorem append_fallback_inj : Function.Injective (fun x : Str => "fallback_".data ++ x) := by
  intro a b h
  simpa using h

/-- Under the fallback scheme every content id is the tagged stripped
base name. -/
theorem extractContentId_unknown_eq (urls : List Str) (u : Str)
    (hdom : (ContentDeduplicator.analyzeUrlPatterns urls).dominantPattern = "unknown".data) :
    ContentDeduplicator.extractContentId "0".data
        (ContentDeduplicator.analyzeUrlPatterns urls) u
      = "fallback_".data ++ ContentDeduplicator.cleanedBase u := by
  unfold ContentDeduplicator.extractContentId
  rw [ContentDeduplicator.extractContentIdW_unknown _ _ _ hdom,
    ContentDeduplicator.fallbackId_eq]

/-- C6 (counterexample): the two URLs `a/pic-300x400.jpg` and
`a/pic-600x800.jpg` differ only in their size token and share the
stripped base name `pic`, yet `deduplicate` keeps both of them (the
numbered scheme dominates and derives the distinct ids `num_300` and
`num_600`), refuting "exactly one representative per distinct stripped
base name". -/
theorem c6_counterexample :
    ContentDeduplicator.cleanedBase "a/pic-300x400.jpg".data
        = ContentDeduplicator.cleanedBase "a/pic-600x800.jpg".data ∧
    (ContentDeduplicator.deduplicate
        ["a/pic-300x400.jpg".data, "a/pic-600x800.jpg".data] "iPhone".data).length = 2 := by
  exact ⟨rfl, rfl⟩

/-- C6 (amended): when the deduplicator's dominant naming scheme is the
fallback one (no sequential, slice, numbered or hash pattern detected),
`deduplicate` returns exactly one representative per distinct stripped
base name of the truthy input URLs, and whenever some input URL with the
same stripped base name carries the `_new` marker the chosen
representative carries it too (in particular `_new` wins over
`_orig`/`_retry` variants of the same base). -/
theorem c6_deduplicate_fallback_amended (urls : List Str) (platform : Str)
    (hdom : (ContentDeduplicator.analyzeUrlPatterns urls).dominantPattern = "unknown".data) :
    (ContentDeduplicator.deduplicate urls platform).length
        = (dedupF ((urls.filter strTruthy).map ContentDeduplicator.cleanedBase)).length ∧
    ∀ u ∈ ContentDeduplicator.deduplicate urls platform,
      (∃ v ∈ urls, strTruthy v = true ∧
          ContentDeduplicator.cleanedBase v = ContentDeduplicator.cleanedBase u ∧
          containsSub "_new".data v = true) →
      containsSub "_new".data u = true := by
  constructor
  · unfold ContentDeduplicator.deduplicate ContentDeduplicator.deduplicateR
    split
    · rename_i hempty
      have : urls = [] := by
        cases urls with
        | nil => rfl
        | cons a t => simp [List.isEmpty] at hempty
      subst this
      simp [dedupF]
    · rw [ContentDeduplicator.dedupCore_length]
      have hmap : (urls.filter strTruthy).map
            (ContentDeduplicator.extractContentId "0".data
              (ContentDeduplicator.analyzeUrlPatterns urls))
          = ((urls.filter strTruthy).map ContentDeduplicator.cleanedBase).map
              (fun x : Str => "fallback_".data ++ x) := by
        rw [List.map_map]
        apply List.map_congr_left
        intro u _
        exact extractContentId_unknown_eq urls u hdom
      rw [hmap, dedupF_map_inj_length append_fallback_inj]
  · intro u hu hex
    rcases hex with ⟨v, hv, hvt, hbase, hvnew⟩
    unfold ContentDeduplicator.deduplicate ContentDeduplicator.deduplicateR at hu
    split at hu
    · cases hu
    · refine ContentDeduplicator.dedupCore_mem_new _ platform urls u hu ⟨v, hv, hvt, ?_, hvnew⟩
      rw [extractContentId_unknown_eq urls v hdom, extractContentId_unknown_eq urls u hdom,
        hbase]

/-- C6 (witness): the amended theorem applied to two same-base variants
`Home_new.jpg` / `Home_orig.jpg`, whose analysis has no dominating
pattern. -/
theorem c6_witness :
    ((ContentDeduplicator.analyzeUrlPatterns
        ["Home_new.jpg".data, "Home_orig.jpg".data]).dominantPattern = "unknown".data) ∧
    ((ContentDeduplicator.deduplicate
        ["Home_new.jpg".data, "Home_orig.jpg".data] "iPhone".data).length
      = (dedupF ((["Home_new.jpg".data, "Home_orig.jpg".data].filter strTruthy).map
          ContentDeduplicator.cleanedBase)).length ∧
    ∀ u ∈ ContentDeduplicator.deduplicate
        ["Home_new.jpg".data, "Home_orig.jpg".data] "iPhone".data,
      (∃ v ∈ ["Home_new.jpg".data, "Home_orig.jpg".data], strTruthy v = true ∧
          ContentDeduplicator.cleanedBase v = ContentDeduplicator.cleanedBase u ∧
          containsSub "_new".data v = true) →
      containsSub "_new".data u = true) :=
  ⟨by decide,
   c6_deduplicate_fallback_amended ["Home_new.jpg".data, "Home_orig.jpg".data] "iPhone".data
     (by decide)⟩

/-- C8: `deduplicate` is a pure deterministic function of its input —
the value the source's dead `Math.random()` call would contribute is
irrelevant — and the output length equals the number of distinct content
identifiers derived from the (truthy) input URLs. -/
theorem c8_deduplicate_deterministic_length :
    ∀ (r1 r2 : Str) (urls : List Str) (platform : Str),
      ContentDeduplicator.deduplicateR r1 urls platform
          = ContentDeduplicator.deduplicateR r2 urls platform ∧
      (ContentDeduplicator.deduplicate urls platform).length
          = ContentDeduplicator.distinctContentIdCount urls := by
  intro r1 r2 urls platform
  refine ⟨ContentDeduplicator.deduplicateR_rand_irrel r1 r2 urls platform, ?_⟩
  unfold ContentDeduplicator.deduplicate ContentDeduplicator.deduplicateR
    ContentDeduplicator.distinctContentIdCount
  split
  · rename_i hempty
    have : urls = [] := by
      cases urls with
      | nil => rfl
      | cons a t => simp [List.isEmpty] at hempty
    subst this
    simp [dedupF]
  · exact ContentDeduplicator.dedupCore_length _ _ _

/-! ### Pattern Analyzer lemmas -/

namespace PatternAnalyzer

theorem slice_expected_le (urls : List Str)
    (h : (detectSlicePattern urls).isComplete = true) :
    (detectSlicePattern urls).expectedCount ≤ urls.length := by
  have hlen : (dedupF ((urls.filter
        (fun u => (sliceMatch u).isSome)).filterMap sliceMatch)).length ≤ urls.length :=
    le_trans (dedupF_length_le _)
      (le_trans (List.length_filterMap_le _ _) (List.length_filter_le _ _))
  have hcompl : (detectSlicePattern urls).isComplete
      = ((dedupF ((urls.filter (fun u => (sliceMatch u).isSome)).filterMap sliceMatch)).length
          == (detectSlicePattern urls).expectedCount) := rfl
  rw [hcompl] at h
  simp only [beq_iff_eq] at h
  rw [← h]
  exact hlen

theorem baseLimits_le (platform : Str) : (baseLimits platform).2 ≤ (baseLimits platform).1 := by
  unfold baseLimits
  split_ifs <;> decide

theorem getPlatformLimits_le (platform : Str) (a : Analysis) :
    (getPlatformLimits platform a).2 ≤ (getPlatformLimits platform a).1 := by
  unfold getPlatformLimits
  split
  · split
    · exact le_refl _
    · exact baseLimits_le platform
  · exact baseLimits_le platform

theorem determine_mk_le (urls : List Str) (platform : Str)
    (hstr : (determineFilteringStrategy (mkAnalysis urls platform)).strategy
          = "respect_slices".data
      ∨ (determineFilteringStrategy (mkAnalysis urls platform)).strategy
          = "platform_optimize".data
      ∨ (determineFilteringStrategy (mkAnalysis urls platform)).strategy = "none".data) :
    (determineFilteringStrategy (mkAnalysis urls platform)).maxScreenshots ≤ urls.length := by
  have htotal : (mkAnalysis urls platform).totalCount = urls.length := rfl
  have hslice : (mkAnalysis urls platform).patterns.slice = detectSlicePattern urls := rfl
  unfold determineFilteringStrategy at hstr ⊢
  split_ifs at hstr ⊢ with h1 h2 h3 h4 h5
  · exact absurd
      (show "respect_sequence".data = "respect_slices".data ∨
          "respect_sequence".data = "platform_optimize".data ∨
          "respect_sequence".data = "none".data from hstr)
      (by decide)
  · show (mkAnalysis urls platform).patterns.slice.expectedCount ≤ urls.length
    rw [hslice]
    exact slice_expected_le urls (by rw [← hslice]; exact h2.2)
  · exact absurd
      (show "deduplicate_aggressive".data = "respect_slices".data ∨
          "deduplicate_aggressive".data = "platform_optimize".data ∨
          "deduplicate_aggressive".data = "none".data from hstr)
      (by decide)
  · exact absurd
      (show "quality_filter".data = "respect_slices".data ∨
          "quality_filter".data = "platform_optimize".data ∨
          "quality_filter".data = "none".data from hstr)
      (by decide)
  · show (getPlatformLimits (mkAnalysis urls platform).platform
        (mkAnalysis urls platform)).2 ≤ urls.length
    calc (getPlatformLimits (mkAnalysis urls platform).platform (mkAnalysis urls platform)).2
        ≤ (getPlatformLimits (mkAnalysis urls platform).platform (mkAnalysis urls platform)).1 :=
          getPlatformLimits_le _ _
      _ ≤ urls.length := le_of_lt (htotal ▸ h5)
  · exact le_of_eq htotal

end PatternAnalyzer

/-- C2 (counterexample): on the five-URL collection `1_of_6 … 5_of_6`
the sequential detector is "complete" (5/6 > 0.8), the chosen strategy is
`respect_sequence` (not `none`), and `maxScreenshots` is 6 — strictly
more than the collection's total of 5, refuting
`maxCount ≤ totalCount` for non-`none` strategies. -/
theorem c2_counterexample :
    (PatternAnalyzer.analyzeCollection
        ["1_of_6".data, "2_of_6".data, "3_of_6".data, "4_of_6".data, "5_of_6".data]
        "iPhone".data).decision.strategy ≠ "none".data ∧
    ¬ ((PatternAnalyzer.analyzeCollection
        ["1_of_6".data, "2_of_6".data, "3_of_6".data, "4_of_6".data, "5_of_6".data]
        "iPhone".data).decision.maxScreenshots
      ≤ ["1_of_6".data, "2_of_6".data, "3_of_6".data, "4_of_6".data,
          "5_of_6".data].length) := by
  constructor
  · decide
  · decide

/-- C2 (amended): `FilterDecision.maxScreenshots ≤ totalCount` holds for
the strategies `none`, `respect_slices` and `platform_optimize`; it can
fail for `respect_sequence` (expected sequence length with only >80% of
the indices present), and for `deduplicate_aggressive` / `quality_filter`
(floors of 3 and 4) on small collections. -/
theorem c2_maxcount_amended (urls : List Str) (platform : Str) (hne : urls ≠ [])
    (hstr : (PatternAnalyzer.analyzeCollection urls platform).decision.strategy
          = "respect_slices".data
      ∨ (PatternAnalyzer.analyzeCollection urls platform).decision.strategy
          = "platform_optimize".data
      ∨ (PatternAnalyzer.analyzeCollection urls platform).decision.strategy = "none".data) :
    (PatternAnalyzer.analyzeCollection urls platform).decision.maxScreenshots
      ≤ urls.length := by
  have hempty : urls.isEmpty = false := by
    cases urls with
    | nil => exact absurd rfl hne
    | cons a t => rfl
  have hdec : (PatternAnalyzer.analyzeCollection urls platform).decision
      = PatternAnalyzer.determineFilteringStrategy (PatternAnalyzer.mkAnalysis urls platform) := by
    unfold PatternAnalyzer.analyzeCollection
    rw [hempty]
    rfl
  rw [hdec] at hstr ⊢
  exact PatternAnalyzer.determine_mk_le urls platform hstr

/-- C2 (witness): a complete slice collection, where the amended bound is
attained with strategy `respect_slices`. -/
theorem c2_witness :
    (["Slice_0.png".data, "Slice_1.png".data, "Slice_2.png".data] ≠ ([] : List Str)) ∧
    ((PatternAnalyzer.analyzeCollection
        ["Slice_0.png".data, "Slice_1.png".data, "Slice_2.png".data]
        "iPad".data).decision.strategy = "respect_slices".data) ∧
    (PatternAnalyzer.analyzeCollection
        ["Slice_0.png".data, "Slice_1.png".data, "Slice_2.png".data]
        "iPad".data).decision.maxScreenshots
      ≤ ["Slice_0.png".data, "Slice_1.png".data, "Slice_2.png".data].length :=
  ⟨by decide, by decide,
   c2_maxcount_amended ["Slice_0.png".data, "Slice_1.png".data, "Slice_2.png".data]
     "iPad".data (by decide) (Or.inl (by decide))⟩

/-! ### Screenshot Validator lemmas -/

namespace ScreenshotValidator

theorem validate_hit (st : VState) (now : Nat) (env : NetEnv) (d : AppData)
    (appId country : Str) {r : VR}
    (h : cacheRead st now (cacheKey appId country) = some r) :
    validateScreenshots st now env d appId country = (r, st, 0) := by
  simp only [validateScreenshots]
  rw [h]

theorem validate_miss (st : VState) (now : Nat) (env : NetEnv) (d : AppData)
    (appId country : Str)
    (h : cacheRead st now (cacheKey appId country) = none) :
    validateScreenshots st now env d appId country
      = ((performValidation env d appId country).1,
         ⟨setAssoc (cacheKey appId country)
            (now, (performValidation env d appId country).1) st.cache⟩,
         (performValidation env d appId country).2) := by
  simp only [validateScreenshots]
  rw [h]

theorem cacheRead_after_set (c : List (Str × (Nat × VR))) (key : Str) (t1 t2 : Nat) (r : VR)
    (hfresh : t2 - t1 < 60000) :
    cacheRead ⟨setAssoc key (t1, r) c⟩ t2 key = some r := by
  unfold cacheRead
  rw [getAssoc_setAssoc_self]
  show (if t2 - t1 < maxCacheAge then some r else none) = some r
  exact if_pos hfresh

end ScreenshotValidator

/-- C9: validation is independent of the Apple TV collection — replacing
the `appletvScreenshots` field of the input record changes nothing in the
result (isValid, confidence, issues, recommendations), the cache update,
or the number of reachability checks: no validator check ever reads the
tv collection. -/
theorem c9_validator_ignores_tv (st : ScreenshotValidator.VState) (now : Nat)
    (env : ScreenshotValidator.NetEnv) (d : AppData) (tv : List Str) (appId country : Str) :
    ScreenshotValidator.validateScreenshots st now env
        { d with appletvScreenshots := tv } appId country
      = ScreenshotValidator.validateScreenshots st now env d appId country := rfl

/-- C10: on a cache hit within the 60-second TTL, `validateScreenshots`
ignores its collections argument entirely: when the first call misses the
cache (computes from `d1` and stores), a second call within the TTL with
arbitrary collections `d2` returns exactly the result computed from the
first call's collections. -/
theorem c10_cache_hit_ignores_collections (st : ScreenshotValidator.VState) (t1 t2 : Nat)
    (env : ScreenshotValidator.NetEnv) (d1 d2 : AppData) (appId country : Str)
    (hmiss : ScreenshotValidator.cacheRead st t1
      (ScreenshotValidator.cacheKey appId country) = none)
    (hfresh : t2 - t1 < 60000) :
    (ScreenshotValidator.validateScreenshots
        (ScreenshotValidator.validateScreenshots st t1 env d1 appId country).2.1
        t2 env d2 appId country).1
      = (ScreenshotValidator.performValidation env d1 appId country).1 ∧
    (ScreenshotValidator.validateScreenshots
        (ScreenshotValidator.validateScreenshots st t1 env d1 appId country).2.1
        t2 env d2 appId country).1
      = (ScreenshotValidator.validateScreenshots st t1 env d1 appId country).1 := by
  rw [ScreenshotValidator.validate_miss st t1 env d1 appId country hmiss]
  rw [ScreenshotValidator.validate_hit _ t2 env d2 appId country
    (ScreenshotValidator.cacheRead_after_set st.cache
      (ScreenshotValidator.cacheKey appId country) t1 t2 _ hfresh)]
  exact ⟨rfl, rfl⟩

/-- C10 (witness): concrete two-call trace from an empty cache. -/
theorem c10_witness :
    (ScreenshotValidator.cacheRead ⟨[]⟩ 0
        (ScreenshotValidator.cacheKey "1".data "us".data) = none) ∧
    (1000 - 0 < 60000) ∧
    ((ScreenshotValidator.validateScreenshots
        (ScreenshotValidator.validateScreenshots ⟨[]⟩ 0
          ⟨fun _ _ => true, fun _ => true⟩
          ⟨["s.jpg".data], [], [], none, none, none⟩ "1".data "us".data).2.1
        1000 ⟨fun _ _ => true, fun _ => true⟩
        ⟨[], [], ["t.jpg".data], none, none, none⟩ "1".data "us".data).1
      = (ScreenshotValidator.performValidation ⟨fun _ _ => true, fun _ => true⟩
          ⟨["s.jpg".data], [], [], none, none, none⟩ "1".data "us".data).1) :=
  ⟨rfl, by decide,
   (c10_cache_hit_ignores_collections ⟨[]⟩ 0 1000 ⟨fun _ _ => true, fun _ => true⟩
      ⟨["s.jpg".data], [], [], none, none, none⟩
      ⟨[], [], ["t.jpg".data], none, none, none⟩ "1".data "us".data rfl (by decide)).1⟩

/-- C5 (counterexample): three calls with the same key: call 1 at t=0
computes and caches, call 2 at t=55s is a cache hit (0 HEAD requests),
call 3 at t=70s is only 15s after call 2 — a pair of validate calls less
than 60 seconds apart — yet it misses (the entry's TTL ran out at t=60s)
and performs 2 HEAD requests, refuting "the second call performs no
additional reachability checks". -/
theorem c5_counterexample :
    70000 - 55000 < 60000 ∧
    (ScreenshotValidator.validateScreenshots
        (ScreenshotValidator.validateScreenshots ⟨[]⟩ 0
          ⟨fun _ _ => true, fun _ => true⟩
          ⟨["s.jpg".data], [], [], none, none, none⟩ "1".data "us".data).2.1
        55000 ⟨fun _ _ => true, fun _ => true⟩
        ⟨["s.jpg".data], [], [], none, none, none⟩ "1".data "us".data).2.2 = 0 ∧
    (ScreenshotValidator.validateScreenshots
        (ScreenshotValidator.validateScreenshots
          (ScreenshotValidator.validateScreenshots ⟨[]⟩ 0
            ⟨fun _ _ => true, fun _ => true⟩
            ⟨["s.jpg".data], [], [], none, none, none⟩ "1".data "us".data).2.1
          55000 ⟨fun _ _ => true, fun _ => true⟩
          ⟨["s.jpg".data], [], [], none, none, none⟩ "1".data "us".data).2.1
        70000 ⟨fun _ _ => true, fun _ => true⟩
        ⟨["s.jpg".data], [], [], none, none, none⟩ "1".data "us".data).2.2 = 2 := by
  refine ⟨by decide, ?_, ?_⟩ <;> decide

/-- C5 (amended): for every pair of validate calls with the same
(subjectId, country) key where the first call misses the cache (computes
and stores) and the second follows less than 60 seconds later, both
calls return identical confidence and issues (indeed identical results)
and the second call performs no reachability checks; the 60-second
window runs from the moment the result was cached, not from an arbitrary
earlier read. -/
theorem c5_cache_amended (st : ScreenshotValidator.VState) (t1 t2 : Nat)
    (env : ScreenshotValidator.NetEnv) (d : AppData) (appId country : Str)
    (hmiss : ScreenshotValidator.cacheRead st t1
      (ScreenshotValidator.cacheKey appId country) = none)
    (hfresh : t2 - t1 < 60000) :
    (ScreenshotValidator.validateScreenshots
        (ScreenshotValidator.validateScreenshots st t1 env d appId country).2.1
        t2 env d appId country).1.confidence
      = (ScreenshotValidator.validateScreenshots st t1 env d appId country).1.confidence ∧
    (ScreenshotValidator.validateScreenshots
        (ScreenshotValidator.validateScreenshots st t1 env d appId country).2.1
        t2 env d appId country).1.issues
      = (ScreenshotValidator.validateScreenshots st t1 env d appId country).1.issues ∧
    (ScreenshotValidator.validateScreenshots
        (ScreenshotValidator.validateScreenshots st t1 env d appId country).2.1
        t2 env d appId country).2.2 = 0 := by
  rw [ScreenshotValidator.validate_miss st t1 env d appId country hmiss]
  rw [ScreenshotValidator.validate_hit _ t2 env d appId country
    (ScreenshotValidator.cacheRead_after_set st.cache
      (ScreenshotValidator.cacheKey appId country) t1 t2 _ hfresh)]
  exact ⟨rfl, rfl, rfl⟩

/-- C5 (witness): the amended theorem at a concrete two-call trace. -/
theorem c5_witness :
    (ScreenshotValidator.cacheRead ⟨[]⟩ 0
        (ScreenshotValidator.cacheKey "1".data "us".data) = none) ∧
    (30000 - 0 < 60000) ∧
    (ScreenshotValidator.validateScreenshots
        (ScreenshotValidator.validateScreenshots ⟨[]⟩ 0
          ⟨fun _ _ => true, fun _ => true⟩
          ⟨["s.jpg".data], [], [], none, none, none⟩ "1".data "us".data).2.1
        30000 ⟨fun _ _ => true, fun _ => true⟩
        ⟨["s.jpg".data], [], [], none, none, none⟩ "1".data "us".data).2.2 = 0 :=
  ⟨rfl, by decide,
   (c5_cache_amended ⟨[]⟩ 0 30000 ⟨fun _ _ => true, fun _ => true⟩
      ⟨["s.jpg".data], [], [], none, none, none⟩ "1".data "us".data rfl (by decide)).2.2⟩

namespace ScreenshotValidator

theorem mem_recs_of_mem_r4 {a mr : Str} {r4 : List Str} {c : Bool} (h : a ∈ r4) :
    a ∈ (if (r4.isEmpty && c) = true then [mr] else r4) := by
  have he : r4.isEmpty = false := by
    cases r4 with
    | nil => cases h
    | cons x t => rfl
  simp [he, h]

theorem genRecs_fr (issues : List Str) (conf : ℚ) (h : conf < 3 / 10) :
    "force_refresh".data ∈ genRecs issues conf := by
  simp only [genRecs, if_pos h]
  apply mem_recs_of_mem_r4
  simp

theorem genRecs_cc (issues : List Str) (conf : ℚ) (h1 : ¬ conf < 3 / 10)
    (h2 : conf < 7 / 10) : "clear_cache".data ∈ genRecs issues conf := by
  simp only [genRecs, if_neg h1, if_pos h2]
  apply mem_recs_of_mem_r4
  simp

theorem genRecs_rd (issues : List Str) (conf : ℚ)
    (h : "excessive_iphone_duplicates".data ∈ issues ∨
      "excessive_ipad_duplicates".data ∈ issues) :
    "rerun_deduplication".data ∈ genRecs issues conf := by
  simp only [genRecs, if_pos h]
  apply mem_recs_of_mem_r4
  simp

theorem genRecs_fws (issues : List Str) (conf : ℚ)
    (h : "threads_mastodon_mismatch".data ∈ issues) :
    "force_web_scraping".data ∈ genRecs issues conf := by
  simp only [genRecs, if_pos h]
  apply mem_recs_of_mem_r4
  simp

theorem genRecs_rsu (issues : List Str) (conf : ℚ)
    (h : "screenshots_not_accessible".data ∈ issues) :
    "refresh_screenshot_urls".data ∈ genRecs issues conf := by
  simp only [genRecs, if_pos h]
  apply mem_recs_of_mem_r4
  simp

theorem genRecs_manual (issues : List Str) (conf : ℚ) (hne : issues ≠ [])
    (h1 : "force_refresh".data ∉ genRecs issues conf)
    (h2 : "clear_cache".data ∉ genRecs issues conf)
    (h3 : "rerun_deduplication".data ∉ genRecs issues conf)
    (h4 : "force_web_scraping".data ∉ genRecs issues conf)
    (h5 : "refresh_screenshot_urls".data ∉ genRecs issues conf) :
    "manual_review".data ∈ genRecs issues conf := by
  by_cases c1 : conf < 3 / 10
  · exact absurd (genRecs_fr issues conf c1) h1
  by_cases c2 : conf < 7 / 10
  · exact absurd (genRecs_cc issues conf c1 c2) h2
  by_cases c3 : "excessive_iphone_duplicates".data ∈ issues ∨
      "excessive_ipad_duplicates".data ∈ issues
  · exact absurd (genRecs_rd issues conf c3) h3
  by_cases c4 : "threads_mastodon_mismatch".data ∈ issues
  · exact absurd (genRecs_fws issues conf c4) h4
  by_cases c5 : "screenshots_not_accessible".data ∈ issues
  · exact absurd (genRecs_rsu issues conf c5) h5
  have hie : issues.isEmpty = false := by
    cases issues with
    | nil => exact absurd rfl hne
    | cons x t => rfl
  have hall : genRecs issues conf = ["manual_review".data] := by
    simp only [genRecs, if_neg c1, if_neg c2, if_neg c3, if_neg c4, if_neg c5]
    simp [hie]
  rw [hall]
  simp

end ScreenshotValidator

/-- C7 (counterexample): when the existence check fails (`app_not_found`
short-circuit), the returned confidence is 0 — below 0.3 — yet the
recommendations are exactly `[app_removed]` and do not include
`force_refresh`, refuting "if confidence < 0.3 then they include
force_refresh" for every validate call. -/
theorem c7_counterexample :
    ((ScreenshotValidator.validateScreenshots ⟨[]⟩ 0 ⟨fun _ _ => false, fun _ => true⟩
        ⟨["s.jpg".data], [], [], none, none, none⟩ "1".data "us".data).1.confidence = 0) ∧
    ((0 : ℚ) < 3 / 10) ∧
    ("force_refresh".data ∉ (ScreenshotValidator.validateScreenshots ⟨[]⟩ 0
        ⟨fun _ _ => false, fun _ => true⟩
        ⟨["s.jpg".data], [], [], none, none, none⟩ "1".data "us".data).1.recommendations) ∧
    ((ScreenshotValidator.validateScreenshots ⟨[]⟩ 0 ⟨fun _ _ => false, fun _ => true⟩
        ⟨["s.jpg".data], [], [], none, none, none⟩ "1".data "us".data).1.recommendations
      = ["app_removed".data]) := by
  refine ⟨rfl, by norm_num, by decide, rfl⟩

/-- C7 (amended): for every validate call that computes a fresh result
(cache miss) and whose existence check passes, the recommendations
satisfy the spec's rules: confidence < 0.3 ⇒ force_refresh; 0.3 ≤
confidence < 0.7 ⇒ clear_cache; a duplicate issue ⇒ rerun_deduplication;
the known-mismatch issue ⇒ force_web_scraping; the inaccessible issue ⇒
refresh_screenshot_urls; and when issues remain with none of these five
produced, manual_review.  When the existence check fails, the
recommendations are instead exactly `[app_removed]`
(see the counterexample). -/
theorem c7_recommendations_amended (st : ScreenshotValidator.VState) (now : Nat)
    (env : ScreenshotValidator.NetEnv) (d : AppData) (appId country : Str)
    (r : ScreenshotValidator.VR)
    (hmiss : ScreenshotValidator.cacheRead st now
      (ScreenshotValidator.cacheKey appId country) = none)
    (hpage : env.pageOk appId country = true)
    (hr : r = (ScreenshotValidator.validateScreenshots st now env d appId country).1) :
    (r.confidence < 3 / 10 → "force_refresh".data ∈ r.recommendations) ∧
    (¬ r.confidence < 3 / 10 → r.confidence < 7 / 10 →
      "clear_cache".data ∈ r.recommendations) ∧
    (("excessive_iphone_duplicates".data ∈ r.issues ∨
        "excessive_ipad_duplicates".data ∈ r.issues) →
      "rerun_deduplication".data ∈ r.recommendations) ∧
    ("threads_mastodon_mismatch".data ∈ r.issues →
      "force_web_scraping".data ∈ r.recommendations) ∧
    ("screenshots_not_accessible".data ∈ r.issues →
      "refresh_screenshot_urls".data ∈ r.recommendations) ∧
    (r.issues ≠ [] →
      "force_refresh".data ∉ r.recommendations →
      "clear_cache".data ∉ r.recommendations →
      "rerun_deduplication".data ∉ r.recommendations →
      "force_web_scraping".data ∉ r.recommendations →
      "refresh_screenshot_urls".data ∉ r.recommendations →
      "manual_review".data ∈ r.recommendations) := by
  have hv : (ScreenshotValidator.validateScreenshots st now env d appId country).1
      = (ScreenshotValidator.performValidation env d appId country).1 := by
    rw [ScreenshotValidator.validate_miss st now env d appId country hmiss]
  rw [hv] at hr
  subst hr
  have hrec : (ScreenshotValidator.performValidation env d appId country).1.recommendations
      = ScreenshotValidator.genRecs
          (ScreenshotValidator.performValidation env d appId country).1.issues
          (ScreenshotValidator.performValidation env d appId country).1.confidence := by
    simp only [ScreenshotValidator.performValidation, hpage, if_true]
  refine ⟨fun h => ?_, fun h1 h2 => ?_, fun h => ?_, fun h => ?_, fun h => ?_,
    fun hne h1 h2 h3 h4 h5 => ?_⟩
  · rw [hrec]; exact ScreenshotValidator.genRecs_fr _ _ h
  · rw [hrec]; exact ScreenshotValidator.genRecs_cc _ _ h1 h2
  · rw [hrec]; exact ScreenshotValidator.genRecs_rd _ _ h
  · rw [hrec]; exact ScreenshotValidator.genRecs_fws _ _ h
  · rw [hrec]; exact ScreenshotValidator.genRecs_rsu _ _ h
  · rw [hrec] at h1 h2 h3 h4 h5 ⊢
    exact ScreenshotValidator.genRecs_manual _ _ hne h1 h2 h3 h4 h5

/-- C7 (witness): the amended theorem at a concrete fresh call whose
existence check passes. -/
theorem c7_witness :
    (ScreenshotValidator.cacheRead ⟨[]⟩ 0
        (ScreenshotValidator.cacheKey "1".data "us".data) = none) ∧
    ((⟨fun _ _ => true, fun _ => true⟩ : ScreenshotValidator.NetEnv).pageOk
        "1".data "us".data = true) ∧
    (((ScreenshotValidator.validateScreenshots ⟨[]⟩ 0 ⟨fun _ _ => true, fun _ => true⟩
        ⟨["s.jpg".data], [], [], none, none, none⟩ "1".data "us".data).1.confidence < 3 / 10 →
      "force_refresh".data ∈ (ScreenshotValidator.validateScreenshots ⟨[]⟩ 0
        ⟨fun _ _ => true, fun _ => true⟩
        ⟨["s.jpg".data], [], [], none, none, none⟩
        "1".data "us".data).1.recommendations) ∧
    (¬ (ScreenshotValidator.validateScreenshots ⟨[]⟩ 0 ⟨fun _ _ => true, fun _ => true⟩
        ⟨["s.jpg".data], [], [], none, none, none⟩ "1".data "us".data).1.confidence < 3 / 10 →
      (ScreenshotValidator.validateScreenshots ⟨[]⟩ 0 ⟨fun _ _ => true, fun _ => true⟩
        ⟨["s.jpg".data], [], [], none, none, none⟩ "1".data "us".data).1.confidence < 7 / 10 →
      "clear_cache".data ∈ (ScreenshotValidator.validateScreenshots ⟨[]⟩ 0
        ⟨fun _ _ => true, fun _ => true⟩
        ⟨["s.jpg".data], [], [], none, none, none⟩
        "1".data "us".data).1.recommendations) ∧
    (("excessive_iphone_duplicates".data ∈ (ScreenshotValidator.validateScreenshots ⟨[]⟩ 0
        ⟨fun _ _ => true, fun _ => true⟩
        ⟨["s.jpg".data], [], [], none, none, none⟩ "1".data "us".data).1.issues ∨
      "excessive_ipad_duplicates".data ∈ (ScreenshotValidator.validateScreenshots ⟨[]⟩ 0
        ⟨fun _ _ => true, fun _ => true⟩
        ⟨["s.jpg".data], [], [], none, none, none⟩ "1".data "us".data).1.issues) →
      "rerun_deduplication".data ∈ (ScreenshotValidator.validateScreenshots ⟨[]⟩ 0
        ⟨fun _ _ => true, fun _ => true⟩
        ⟨["s.jpg".data], [], [], none, none, none⟩
        "1".data "us".data).1.recommendations) ∧
    ("threads_mastodon_mismatch".data ∈ (ScreenshotValidator.validateScreenshots ⟨[]⟩ 0
        ⟨fun _ _ => true, fun _ => true⟩
        ⟨["s.jpg".data], [], [], none, none, none⟩ "1".data "us".data).1.issues →
      "force_web_scraping".data ∈ (ScreenshotValidator.validateScreenshots ⟨[]⟩ 0
        ⟨fun _ _ => true, fun _ => true⟩
        ⟨["s.jpg".data], [], [], none, none, none⟩
        "1".data "us".data).1.recommendations) ∧
    ("screenshots_not_accessible".data ∈ (ScreenshotValidator.validateScreenshots ⟨[]⟩ 0
        ⟨fun _ _ => true, fun _ => true⟩
        ⟨["s.jpg".data], [], [], none, none, none⟩ "1".data "us".data).1.issues →
      "refresh_screenshot_urls".data ∈ (ScreenshotValidator.validateScreenshots ⟨[]⟩ 0
        ⟨fun _ _ => true, fun _ => true⟩
        ⟨["s.jpg".data], [], [], none, none, none⟩
        "1".data "us".data).1.recommendations) ∧
    ((ScreenshotValidator.validateScreenshots ⟨[]⟩ 0 ⟨fun _ _ => true, fun _ => true⟩
        ⟨["s.jpg".data], [], [], none, none, none⟩ "1".data "us".data).1.issues ≠ [] →
      "force_refresh".data ∉ (ScreenshotValidator.validateScreenshots ⟨[]⟩ 0
        ⟨fun _ _ => true, fun _ => true⟩
        ⟨["s.jpg".data], [], [], none, none, none⟩ "1".data "us".data).1.recommendations →
      "clear_cache".data ∉ (ScreenshotValidator.validateScreenshots ⟨[]⟩ 0
        ⟨fun _ _ => true, fun _ => true⟩
        ⟨["s.jpg".data], [], [], none, none, none⟩ "1".data "us".data).1.recommendations →
      "rerun_deduplication".data ∉ (ScreenshotValidator.validateScreenshots ⟨[]⟩ 0
        ⟨fun _ _ => true, fun _ => true⟩
        ⟨["s.jpg".data], [], [], none, none, none⟩ "1".data "us".data).1.recommendations →
      "force_web_scraping".data ∉ (ScreenshotValidator.validateScreenshots ⟨[]⟩ 0
        ⟨fun _ _ => true, fun _ => true⟩
        ⟨["s.jpg".data], [], [], none, none, none⟩ "1".data "us".data).1.recommendations →
      "refresh_screenshot_urls".data ∉ (ScreenshotValidator.validateScreenshots ⟨[]⟩ 0
        ⟨fun _ _ => true, fun _ => true⟩
        ⟨["s.jpg".data], [], [], none, none, none⟩ "1".data "us".data).1.recommendations →
      "manual_review".data ∈ (ScreenshotValidator.validateScreenshots ⟨[]⟩ 0
        ⟨fun _ _ => true, fun _ => true⟩
        ⟨["s.jpg".data], [], [], none, none, none⟩
        "1".data "us".data).1.recommendations)) :=
  ⟨rfl, rfl,
   c7_recommendations_amended ⟨[]⟩ 0 ⟨fun _ _ => true, fun _ => true⟩
     ⟨["s.jpg".data], [], [], none, none, none⟩ "1".data "us".data _ rfl rfl rfl⟩

/-! ### Screenshot Chain and web-extraction claim lemmas -/

theorem isEmpty_false_of_ne {l : List Str} (h : l ≠ []) : l.isEmpty = false := by
  cases l with
  | nil => exact absurd rfl h
  | cons a t => rfl

/-- A foldl whose step grows a measure by at most one grows it by at
most the list length. -/
theorem foldl_step_bound {σ α : Type} (f : σ → α → σ) (len : σ → Nat)
    (hf : ∀ s a, len (f s a) ≤ len s + 1) :
    ∀ (l : List α) (s : σ), len (l.foldl f s) ≤ len s + l.length := by
  intro l
  induction l with
  | nil => intro s; simp
  | cons a t ih =>
    intro s
    rw [List.foldl_cons]
    have h1 := hf s a
    have h2 := ih (f s a)
    simp only [List.length_cons]
    omega

/-- C3 (counterexample): a record whose only nonempty platform
collection is the Apple TV one is rejected by the primary-source step
with reason `no_screenshots_in_api` — even with validation skipped and a
passing validator result — refuting "accepts whenever at least one of
the three platform collections is non-empty". -/
theorem c3_counterexample :
    ScreenshotChain.tryItunesApi ⟨[], [], ["tv.png".data], none, none, none⟩ true
        ⟨true, 1, [], []⟩
      = ScreenshotChain.ApiRes.rejected "no_screenshots_in_api".data := rfl

/-- C3 (amended): the primary-source step accepts — returning the
processed record — whenever at least one of the phone or tablet
collections is non-empty and validation passes or is skipped; the tv
collection is never consulted, so a tv-only record is rejected (see the
counterexample). -/
theorem c3_tryitunes_amended (d : AppData) (skipValidation : Bool)
    (v : ScreenshotValidator.VR)
    (hsome : d.screenshots ≠ [] ∨ d.ipadScreenshots ≠ [])
    (hval : skipValidation = true ∨ v.isValid = true) :
    ScreenshotChain.tryItunesApi d skipValidation v
      = ScreenshotChain.ApiRes.accepted (ScreenshotChain.processScreenshots d) := by
  simp only [ScreenshotChain.tryItunesApi]
  have hcond : (!(!d.screenshots.isEmpty) && !(!d.ipadScreenshots.isEmpty)) = false := by
    rcases hsome with h | h <;> simp [isEmpty_false_of_ne h]
  have hval' : (!skipValidation && !v.isValid) = false := by
    rcases hval with h | h <;> simp [h]
  rw [hcond, hval']
  rfl

/-- C3 (witness): a phone-only record with validation skipped is
accepted. -/
theorem c3_witness :
    ((["a.png".data] : List Str) ≠ [] ∨ ([] : List Str) ≠ []) ∧
    ((true = true) ∨
      (ScreenshotValidator.VR.mk false 0 [] []).isValid = true) ∧
    ScreenshotChain.tryItunesApi ⟨["a.png".data], [], [], none, none, none⟩ true
        ⟨false, 0, [], []⟩
      = ScreenshotChain.ApiRes.accepted
          (ScreenshotChain.processScreenshots ⟨["a.png".data], [], [], none, none, none⟩) :=
  ⟨Or.inl (by decide), Or.inl rfl,
   c3_tryitunes_amended ⟨["a.png".data], [], [], none, none, none⟩ true ⟨false, 0, [], []⟩
     (Or.inl (by decide)) (Or.inl rfl)⟩

namespace ScreenshotFallback

theorem selectDeviceUrls_length_le (maxN : Nat) :
    ∀ (l : List PatGroup) (taken : Nat),
      (selectDeviceUrls maxN l taken).length ≤ maxN - taken := by
  intro l
  induction l with
  | nil => intro taken; simp [selectDeviceUrls]
  | cons g rest ih =>
    intro taken
    simp only [selectDeviceUrls]
    by_cases hstop : maxN ≤ taken
    · rw [if_pos hstop]
      simp
    · rw [if_neg hstop]
      by_cases hconf : (if taken = 0 then (1 : ℤ) else 2) ≤ g.confidence
      · rw [if_pos hconf]
        have h1 := ih (taken + 1)
        simp only [List.length_cons]
        omega
      · rw [if_neg hconf]
        have h1 := ih taken
        omega

theorem dedupSemantic_length_le (l : List Str) :
    (deduplicateSemanticDuplicates l).length ≤ l.length := by
  unfold deduplicateSemanticDuplicates
  have h := foldl_step_bound
    (fun (st : List Str × List Str) u =>
      match uuidFileMatch u with
      | some uf =>
        let base := removeEndVersion uf.2
        if base ∈ st.1 then st else (st.1 ++ [base], st.2 ++ [u])
      | none => (st.1, st.2 ++ [u]))
    (fun st => st.2.length)
    (by
      intro s a
      rcases h : uuidFileMatch a with - | uf
      · simp [h]
      · simp only [h]
        split
        · simp
        · simp)
    l ([], [])
  simpa using h

end ScreenshotFallback

/-- C4 (amended): at the group-selection stage the number of groups kept
— hence of URLs emitted (one best-quality URL per kept group, possibly
fewer after the semantic-duplicate pass) — is capped at 8 for iPhone and
at 6 for iPad and Apple TV (`deviceType === 'iphone' ? 8 : 6`), not 8
for the tablet as claimed. -/
theorem c4_group_caps_amended (grouped : List (Str × List Str)) :
    (ScreenshotFallback.selectPrimaryScreenshotGroups grouped).iphone.length ≤ 8 ∧
    (ScreenshotFallback.selectPrimaryScreenshotGroups grouped).ipad.length ≤ 6 ∧
    (ScreenshotFallback.selectPrimaryScreenshotGroups grouped).appletv.length ≤ 6 := by
  unfold ScreenshotFallback.selectPrimaryScreenshotGroups
  refine ⟨?_, ?_, ?_⟩ <;>
    exact le_trans (ScreenshotFallback.dedupSemantic_length_le _)
      (by simpa using ScreenshotFallback.selectDeviceUrls_length_le _ _ 0)

/-- C4 (counterexample): seven candidate groups all classified as iPad
with qualifying confidence 2, yet only six survive the group-selection
stage — the tablet cap at this stage is 6, not the claimed 8 (under a
cap of 8 all seven would be kept). -/
theorem c4_counterexample :
    (([("p1".data, ["a_iPad_1.jpg".data, "b_iPad_1.jpg".data]),
        ("p2".data, ["a_iPad_2.jpg".data, "b_iPad_2.jpg".data]),
        ("p3".data, ["a_iPad_3.jpg".data, "b_iPad_3.jpg".data]),
        ("p4".data, ["a_iPad_4.jpg".data, "b_iPad_4.jpg".data]),
        ("p5".data, ["a_iPad_5.jpg".data, "b_iPad_5.jpg".data]),
        ("p6".data, ["a_iPad_6.jpg".data, "b_iPad_6.jpg".data]),
        ("p7".data, ["a_iPad_7.jpg".data, "b_iPad_7.jpg".data])].map
          ScreenshotFallback.classifyGroup).filter
        (fun g => decide (g.deviceType = "ipad".data ∧ 2 ≤ g.confidence))).length = 7 ∧
    (ScreenshotFallback.selectPrimaryScreenshotGroups
        [("p1".data, ["a_iPad_1.jpg".data, "b_iPad_1.jpg".data]),
         ("p2".data, ["a_iPad_2.jpg".data, "b_iPad_2.jpg".data]),
         ("p3".data, ["a_iPad_3.jpg".data, "b_iPad_3.jpg".data]),
         ("p4".data, ["a_iPad_4.jpg".data, "b_iPad_4.jpg".data]),
         ("p5".data, ["a_iPad_5.jpg".data, "b_iPad_5.jpg".data]),
         ("p6".data, ["a_iPad_6.jpg".data, "b_iPad_6.jpg".data]),
         ("p7".data, ["a_iPad_7.jpg".data, "b_iPad_7.jpg".data])]).ipad.length = 6 := by
  exact ⟨by decide, by decide⟩

theorem scrapeLoop_all_empty (d : AppData) (skip : Bool) (env : ScreenshotChain.ChainEnv) :
    ∀ (r a : Nat),
      (∀ k, a ≤ k → k < a + r → env.webShots k = Except.ok ⟨[], [], []⟩) →
      ScreenshotChain.scrapeLoop d skip env r a none
        = ScreenshotChain.createFallbackResult d none := by
  intro r
  induction r with
  | zero => intro a h; rfl
  | succ n ih =>
    intro a h
    have hk : env.webShots a = Except.ok ⟨[], [], []⟩ := h a (le_refl a) (by omega)
    have hweb : ScreenshotChain.tryWebScraping d a skip env
        = ScreenshotChain.WebRes.rejected "no_screenshots_extracted".data none := by
      simp only [ScreenshotChain.tryWebScraping]
      rw [hk]
      rfl
    simp only [ScreenshotChain.scrapeLoop]
    rw [hweb]
    exact ih (a + 1) (fun k hk1 hk2 => h k (by omega) (by omega))

/-- C1: `extract` never raises — every input and environment produces an
`Except.ok` result — and whenever the primary record supplies zero
screenshot URLs for all three platforms and every web-scrape attempt up
to `maxRetries` yields zero candidates, the returned result has empty
arrays for all three platform collections and a non-null warning
field. -/
theorem c1_extract_total_and_empty_fallback (d : AppData) (opts : ScreenshotChain.ChainOpts)
    (env : ScreenshotChain.ChainEnv) :
    (∃ res, ScreenshotChain.extract d opts env = Except.ok res) ∧
    ((d.screenshots = [] ∧ d.ipadScreenshots = [] ∧ d.appletvScreenshots = []) →
      (∀ k, 1 ≤ k → k ≤ opts.maxRetries → env.webShots k = Except.ok ⟨[], [], []⟩) →
      ∃ res, ScreenshotChain.extract d opts env = Except.ok res ∧
        res.screenshots = [] ∧ res.ipadScreenshots = [] ∧ res.appletvScreenshots = [] ∧
        res.warningTag ≠ none) := by
  constructor
  · simp only [ScreenshotChain.extract]
    split
    · exact ⟨_, rfl⟩
    · exact ⟨_, rfl⟩
  · rintro ⟨h1, h2, h3⟩ hweb
    have hapi : ScreenshotChain.tryItunesApi d opts.skipValidation env.validPrimary
        = ScreenshotChain.ApiRes.rejected "no_screenshots_in_api".data := by
      simp [ScreenshotChain.tryItunesApi, h1, h2]
    have hloop := scrapeLoop_all_empty d opts.skipValidation env opts.maxRetries 1
      (fun k hk1 hk2 => hweb k hk1 (by omega))
    have hex : ScreenshotChain.extract d opts env
        = Except.ok (ScreenshotChain.createFallbackResult d none) := by
      cases hf : opts.forceRefresh <;>
        simp [ScreenshotChain.extract, hapi, hf, hloop]
    rw [hex]
    refine ⟨_, rfl, ?_, ?_, ?_, ?_⟩ <;>
      simp [ScreenshotChain.createFallbackResult, ScreenshotChain.processScreenshots,
        h1, h2, h3, dedupF]

/-- C1 (witness): the empty record with two all-empty scrape attempts
lands in the annotated empty fallback. -/
theorem c1_witness :
    ((AppData.mk [] [] [] none none none).screenshots = [] ∧
      (AppData.mk [] [] [] none none none).ipadScreenshots = [] ∧
      (AppData.mk [] [] [] none none none).appletvScreenshots = []) ∧
    (∀ k, 1 ≤ k → k ≤ (ScreenshotChain.ChainOpts.mk false false 2).maxRetries →
      (ScreenshotChain.ChainEnv.mk (fun _ => Except.ok ⟨[], [], []⟩)
        ⟨true, 1, [], []⟩ (fun _ => ⟨true, 1, [], []⟩)).webShots k
        = Except.ok ⟨[], [], []⟩) ∧
    (∃ res, ScreenshotChain.extract (AppData.mk [] [] [] none none none)
        (ScreenshotChain.ChainOpts.mk false false 2)
        (ScreenshotChain.ChainEnv.mk (fun _ => Except.ok ⟨[], [], []⟩)
          ⟨true, 1, [], []⟩ (fun _ => ⟨true, 1, [], []⟩)) = Except.ok res ∧
      res.screenshots = [] ∧ res.ipadScreenshots = [] ∧ res.appletvScreenshots = [] ∧
      res.warningTag ≠ none) :=
  ⟨⟨rfl, rfl, rfl⟩, fun _ _ _ => rfl,
   (c1_extract_total_and_empty_fallback (AppData.mk [] [] [] none none none)
      (ScreenshotChain.ChainOpts.mk false false 2)
      (ScreenshotChain.ChainEnv.mk (fun _ => Except.ok ⟨[], [], []⟩)
        ⟨true, 1, [], []⟩ (fun _ => ⟨true, 1, [], []⟩))).2
     ⟨rfl, rfl, rfl⟩ (fun _ _ _ => rfl)⟩
